import Mathlib

/-! # rgb_led_matrix: the image display example (`img_display/src/image-example.cpp`)

A shallow embedding of the display pipeline of `image-example.cpp` and the
properties its design document states about it.

* `Vec3b`, `Mat`: the OpenCV pixel grid as the program reads it
  (`image.rows`, `image.cols`, `image.at<cv::Vec3b>(y, x)`).
* `copy_image_to_canvas`: the blitter, polymorphic in the sink because
  `Canvas::SetPixel` is a virtual call.
* `World`: the observable state of a run: the chronological trace of every
  action of the program and the buffer bookkeeping of the matrix driver.
* `interrupt_received`: the flag written by `InterruptHandler`.  The handler
  runs at an arbitrary instant of the run, or never; an instant is a position
  in the trace.
* `show_animated_image`, `generate_random_images`, `load_images`, `main`:
  the remaining functions of the file, in state-passing style.  Loops that
  only the interrupt ends take their iteration budget as `fuel`.
-/

namespace RgbLedMatrix

/-! ## Pixel grids -/

/-- The type `cv::Vec3b`: three `uchar` channels, `pix[0]`, `pix[1]`, `pix[2]`.
`cv::imread` stores colour images in blue, green, red order. -/
structure Vec3b where
  val0 : Nat
  val1 : Nat
  val2 : Nat
  deriving DecidableEq, Repr

/-- Blue channel of a decoded pixel (storage slot 0). -/
def Vec3b.blue (p : Vec3b) : Nat := p.val0

/-- Green channel of a decoded pixel (storage slot 1). -/
def Vec3b.green (p : Vec3b) : Nat := p.val1

/-- Red channel of a decoded pixel (storage slot 2). -/
def Vec3b.red (p : Vec3b) : Nat := p.val2

/-- The part of `cv::Mat` the program uses: `rows`, `cols` (non-negative
32-bit `int`s in OpenCV, so the `uint32_t` loop counters compared against
them never wrap) and the accessor `at<cv::Vec3b>(y, x)`, row first. -/
structure Mat where
  rows : Nat
  cols : Nat
  at_ : Nat → Nat → Vec3b

/-- The method `cv::Mat::empty()`: no elements. -/
def Mat.empty (m : Mat) : Bool := m.rows == 0 || m.cols == 0

/-! ## The blitter -/

/-- Constant `offset_x` of `copy_image_to_canvas`. -/
def offset_x : Int := 0

/-- Constant `offset_y` of `copy_image_to_canvas`. -/
def offset_y : Int := 0

/-- Inner loop of `copy_image_to_canvas`: `for (x = 0; x < image.cols; ++x)`
at a fixed row `y`.  `SetPixel` is the sink's virtual method
`SetPixel(x, y, red, green, blue)`. -/
def copy_image_row {σ : Type} (SetPixel : Int → Int → Nat → Nat → Nat → σ → σ)
    (image : Mat) (y : Nat) (canvas : σ) : σ :=
  (List.range image.cols).foldl
    (fun cv x =>
      let pix := image.at_ y x
      SetPixel ((x : Int) + offset_x) ((y : Int) + offset_y) pix.val2 pix.val1 pix.val0 cv)
    canvas

/-- The function `copy_image_to_canvas(image, canvas)`: the outer loop
`for (y = 0; y < image.rows; ++y)` around `copy_image_row`. -/
def copy_image_to_canvas {σ : Type} (SetPixel : Int → Int → Nat → Nat → Nat → σ → σ)
    (image : Mat) (canvas : σ) : σ :=
  (List.range image.rows).foldl (fun cv y => copy_image_row SetPixel image y cv) canvas

/-- One call of `SetPixel` as the sink receives it. -/
structure PixelWrite where
  x : Int
  y : Int
  red : Nat
  green : Nat
  blue : Nat
  deriving DecidableEq, Repr

/-- A sink that only records the calls it receives, oldest first. -/
def RecordingCanvas.SetPixel (x y : Int) (red green blue : Nat)
    (log : List PixelWrite) : List PixelWrite :=
  log ++ [⟨x, y, red, green, blue⟩]

/-- The calls `copy_image_to_canvas` issues for `image`, in order. -/
def recorded_calls (image : Mat) : List PixelWrite :=
  copy_image_to_canvas RecordingCanvas.SetPixel image []

/-- The write the design document prescribes for the cell at row `r`,
column `c`: device coordinate `(c, r)`, channels red, green, blue. -/
def cell_write (image : Mat) (r c : Nat) : PixelWrite :=
  ⟨(c : Int), (r : Int), (image.at_ r c).red, (image.at_ r c).green, (image.at_ r c).blue⟩

/-- The writes of one row, left to right. -/
def row_writes (image : Mat) (r : Nat) : List PixelWrite :=
  (List.range image.cols).map (cell_write image r)

/-- The writes of the first `n` rows, top to bottom. -/
def rows_writes (image : Mat) : Nat → List PixelWrite
  | 0 => []
  | n + 1 => rows_writes image n ++ row_writes image n

/-- Replays a list of recorded calls on an arbitrary sink. -/
def replay {σ : Type} (SetPixel : Int → Int → Nat → Nat → Nat → σ → σ)
    (ws : List PixelWrite) (canvas : σ) : σ :=
  ws.foldl (fun cv w => SetPixel w.x w.y w.red w.green w.blue cv) canvas

/-- The grid of the design document's channel-order example: one cell with
R=10, G=20, B=30, stored blue first. -/
def sample_pixel : Mat := ⟨1, 1, fun _ _ => ⟨30, 20, 10⟩⟩

/-! ## A canvas as a pixel store -/

/-- One stored colour. -/
structure Color where
  red : Nat
  green : Nat
  blue : Nat
  deriving DecidableEq, Repr

/-- Modelled from the spec: the `Canvas` of the driver header `led-matrix.h`,
which is not part of the source file.  The design document describes it as a
capability that accepts a pixel write at `(x, y)` with three channel values
and reports a width and a height; here it is a store holding the colour last
written to each coordinate, and a write outside the reported size is dropped. -/
structure Canvas where
  width : Int
  height : Int
  pixels : Int → Int → Color

/-- Modelled from the spec: `Canvas::SetPixel(x, y, red, green, blue)` on the
pixel store. -/
def Canvas.SetPixel (x y : Int) (red green blue : Nat) (cv : Canvas) : Canvas :=
  if 0 ≤ x ∧ x < cv.width ∧ 0 ≤ y ∧ y < cv.height then
    { cv with pixels := fun i j => if i = x ∧ j = y then ⟨red, green, blue⟩ else cv.pixels i j }
  else cv

/-- A second sample grid, one row of two cells. -/
def sample_row : Mat := ⟨1, 2, fun _ x => ⟨x, x + 1, x + 2⟩⟩

/-- A blank 2 by 2 pixel store. -/
def blank_canvas : Canvas := ⟨2, 2, fun _ _ => ⟨0, 0, 0⟩⟩

/-! ## The observable world of a run -/

/-- What a `Canvas*` of the program points to: the `RGBMatrix` itself (the
live canvas) or one of the driver's `FrameCanvas` objects. -/
inductive CanvasRef where
  | matrix
  | frame (id : Nat)
  deriving DecidableEq, Repr

/-- The actions of the program, one constructor per kind of statement with an
effect outside the function's locals. -/
inductive Event where
  | parseOptions
  | stdout (text : String)
  | printMatrixFlags
  | signal (signo : Nat)
  | createFromOptions
  | imread (filename : String)
  | resize (width height : Int)
  | readFlag (value : Bool)
  | createFrameCanvas (id : Nat)
  | setPixel (target : CanvasRef) (x y : Int) (red green blue : Nat)
  | swapOnVSync (given returned : Nat)
  | usleep (usec : Nat)
  | sleep (sec : Nat)
  | rngFill
  | clear
  | deleteMatrix
  deriving DecidableEq, Repr

/-- Modelled from the spec: the state of the `RGBMatrix` driver of
`led-matrix.h`, which is not part of the source file, together with the trace
of the run.  `nframes` counts the `FrameCanvas` objects the driver has handed
out, `active` is the one being displayed, `width` and `height` are what
`matrix->width()` and `matrix->height()` report. -/
structure World where
  trace : List Event
  nframes : Nat
  active : Nat
  width : Nat
  height : Nat

/-- Appends one action to the trace. -/
def World.emit (e : Event) (w : World) : World :=
  { w with trace := w.trace ++ [e] }

/-- The world before `main` has done anything. -/
def World.init : World := ⟨[], 0, 0, 0, 0⟩

/-- The global `volatile bool interrupt_received`, initially false and set by
`InterruptHandler`.  `sig` is the instant at which the handler runs, as a
position in the trace (`none`: no signal is ever delivered); from that
position on every read of the flag yields true. -/
def interrupt_received (sig : Option Nat) (w : World) : Bool :=
  match sig with
  | none => false
  | some t => decide (t ≤ w.trace.length)

/-- A read of `interrupt_received`, recorded with the value read. -/
def World.readFlag (sig : Option Nat) (w : World) : World :=
  w.emit (.readFlag (interrupt_received sig w))

/-- The sink `SetPixel` of the canvas `target` in a run: the call is
recorded. -/
def World.SetPixel (target : CanvasRef) (x y : Int) (red green blue : Nat) (w : World) : World :=
  w.emit (.setPixel target x y red green blue)

/-- Modelled from the spec: `matrix->CreateFrameCanvas()` of the absent
driver; the new buffer gets the next free number, which the caller reads off
`nframes` before the call. -/
def CreateFrameCanvas (w : World) : World :=
  { w with trace := w.trace ++ [.createFrameCanvas w.nframes], nframes := w.nframes + 1 }

/-- Modelled from the spec: `matrix->SwapOnVSync(other)` of the absent driver;
`other` becomes the displayed buffer and the call returns the buffer that was
displayed until then, which the caller reads off `active` before the call. -/
def SwapOnVSync (other : Nat) (w : World) : World :=
  { w with trace := w.trace ++ [.swapOnVSync other w.active], active := other }

/-- The state of a loop that only the interrupt ends: the world reached and
whether the function has returned within the iteration budget. -/
structure Run where
  world : World
  returned : Bool

/-! ## Playback -/

/-- The `for (const auto &image : images)` loop of `show_animated_image`,
from the frames still to visit, with the current value of
`offscreen_canvas`.  Yields the world and `offscreen_canvas` when the loop is
left, by exhaustion or by `break`. -/
def show_animated_image_for (sig : Option Nat) : List Mat → Nat → World → World × Nat
  | [], offscreen_canvas, w => (w, offscreen_canvas)
  | image :: rest, offscreen_canvas, w =>
    if interrupt_received sig w then
      (w.readFlag sig, offscreen_canvas)
    else
      let w1 := w.readFlag sig
      let w2 := copy_image_to_canvas (World.SetPixel (.frame offscreen_canvas)) image w1
      let w3 := SwapOnVSync offscreen_canvas w2
      show_animated_image_for sig rest w2.active (w3.emit (.usleep 10000))

/-- The `while (!interrupt_received)` loop of `show_animated_image`. -/
def show_animated_image_while (sig : Option Nat) (images : List Mat) :
    Nat → Nat → World → Run
  | 0, _, w => ⟨w, false⟩
  | fuel + 1, offscreen_canvas, w =>
    if interrupt_received sig w then
      ⟨w.readFlag sig, true⟩
    else
      let r := show_animated_image_for sig images offscreen_canvas (w.readFlag sig)
      show_animated_image_while sig images fuel r.2 r.1

/-- The function `show_animated_image(images, matrix)`. -/
def show_animated_image (sig : Option Nat) (images : List Mat) (fuel : Nat) (w : World) : Run :=
  show_animated_image_while sig images fuel w.nframes (CreateFrameCanvas w)

/-- The `while (!interrupt_received)` loop of `generate_random_images`.
`rng_fill state rows cols` stands for `rng.fill(image, cv::RNG::UNIFORM, 0, 180)`
of the decode library: it yields the new content of `image` and the new
generator state. -/
def generate_random_images_while (rng_fill : Nat → Nat → Nat → (Nat → Nat → Vec3b) × Nat)
    (sig : Option Nat) : Nat → Nat → Mat → Nat → World → Run
  | 0, _, _, _, w => ⟨w, false⟩
  | fuel + 1, rng, image, offscreen_canvas, w =>
    if interrupt_received sig w then
      ⟨w.readFlag sig, true⟩
    else
      let w1 := w.readFlag sig
      let filled := rng_fill rng image.rows image.cols
      let image1 : Mat := { image with at_ := filled.1 }
      let w2 := w1.emit .rngFill
      if interrupt_received sig w2 then
        ⟨w2.readFlag sig, true⟩
      else
        let w3 := w2.readFlag sig
        let w4 := copy_image_to_canvas (World.SetPixel (.frame offscreen_canvas)) image1 w3
        let w5 := SwapOnVSync offscreen_canvas w4
        generate_random_images_while rng_fill sig fuel filled.2 image1 w4.active
          (w5.emit (.usleep 10000))

/-- Initial state of a default-constructed `cv::RNG`. -/
def rng_default_state : Nat := 4294967295

/-- The function `generate_random_images(matrix)`.  The content of the fresh
`image` is never read before `rng.fill` overwrites it. -/
def generate_random_images (rng_fill : Nat → Nat → Nat → (Nat → Nat → Vec3b) × Nat)
    (sig : Option Nat) (fuel : Nat) (w : World) : Run :=
  let image : Mat := ⟨w.height, w.width, fun _ _ => ⟨0, 0, 0⟩⟩
  generate_random_images_while rng_fill sig fuel rng_default_state image w.nframes
    (CreateFrameCanvas w)

/-- The idle wait of `main`: `while (!interrupt_received) sleep(1000);`. -/
def idle_wait (sig : Option Nat) : Nat → World → Run
  | 0, w => ⟨w, false⟩
  | fuel + 1, w =>
    if interrupt_received sig w then
      ⟨w.readFlag sig, true⟩
    else
      idle_wait sig fuel ((w.readFlag sig).emit (.sleep 1000))

/-! ## Loading -/

/-- Outcome of `cv::imread`: a grid, possibly empty, or an exception derived
from `std::exception` with its `what()` text. -/
inductive ImreadResult where
  | threw (what : String)
  | ok (image : Mat)

/-- The function `load_images(filename, target_width, target_height, images)`.
`imread` and `resize` are the two operations of the decode library; the last
argument is the content of `images` on entry, the first component of the
result its content on return. -/
def load_images (imread : String → ImreadResult) (resize : Mat → Int → Int → Mat)
    (filename : String) (target_width target_height : Int) (_images : List Mat) (w : World) :
    List Mat × World :=
  -- images.clear(); images.resize(1); then the try block
  match imread filename with
  | .threw what =>
    ([], (w.emit (.imread filename)).emit (.stdout ("error reading images: " ++ what)))
  | .ok image =>
    let images := [image]
    let w1 := w.emit (.imread filename)
    if image.empty then
      ([], w1.emit (.stdout "No image found."))
    else
      images.foldl
        (fun acc img =>
          (acc.1 ++ [resize img target_width target_height],
           acc.2.emit (.resize target_width target_height)))
        ([], w1)

/-! ## The program -/

/-- The external collaborators of `main`. -/
structure Env where
  /-- Stands for `rgb_matrix::ParseOptionsFromFlags`: success, and `argv` with the
  consumed flags removed. -/
  ParseOptionsFromFlags : List String → Bool × List String
  /-- Stands for `RGBMatrix::CreateFromOptions`: `none` for `NULL`, else the
  panel width and height. -/
  CreateFromOptions : Option (Nat × Nat)
  /-- Stands for `cv::imread`. -/
  imread : String → ImreadResult
  /-- Stands for `cv::resize` to a given width and height. -/
  resize : Mat → Int → Int → Mat
  /-- Stands for `cv::RNG::fill`. -/
  rng_fill : Nat → Nat → Nat → (Nat → Nat → Vec3b) × Nat

/-- How far `main` got: still running when the budget ran out (`exit` is
`none`, `uncaught` is false), returned with an exit code, or left by an
exception that nothing catches (`uncaught` is true, no exit code). -/
structure Outcome where
  world : World
  exit : Option Int
  uncaught : Bool

/-- The function `usage(program_name)`: prints and returns 1.  `program_name`
is `none` for a null pointer, which is what `argv[0]` is when `argc` is 0:
`std::string(program_name)` then throws `std::logic_error`, so the usage line
is never completed, `PrintMatrixFlags` is not reached and nothing is
returned. -/
def usage (program_name : Option String) (w : World) : Outcome :=
  match program_name with
  | none => ⟨w, none, true⟩
  | some name =>
    ⟨(w.emit (.stdout ("Usage: " ++ name ++
        "[led-matrix-options] <image-filename>"))).emit .printMatrixFlags, some 1, false⟩

/-- The `switch (images.size())` of `main`: case 0, case 1, default. -/
def main_switch (env : Env) (sig : Option Nat) (images : List Mat) (fuel : Nat) (w : World) :
    Run :=
  match images with
  | [] => generate_random_images env.rng_fill sig fuel w
  | [image] => idle_wait sig fuel (copy_image_to_canvas (World.SetPixel .matrix) image w)
  | _ :: _ :: _ => ⟨w, true⟩

/-- The function `main(argc, argv)`.  `argv` may be empty (`argc` is 0): then
`argv[0]` is the null pointer that `usage` receives.  An exception thrown in
`usage` leaves `main`, which has no handler. -/
def main (env : Env) (argv : List String) (sig : Option Nat) (fuel : Nat) : Outcome :=
  let parsed := env.ParseOptionsFromFlags argv
  let w0 := World.init.emit .parseOptions
  if !parsed.1 then
    usage parsed.2.head? w0
  else if parsed.2.length ≠ 2 then
    usage parsed.2.head? w0
  else
    let filename := parsed.2.getD 1 ""
    let w1 := (w0.emit (.signal 15)).emit (.signal 2)
    let w2 := w1.emit .createFromOptions
    match env.CreateFromOptions with
    | none => ⟨w2, some 1, false⟩
    | some (width, height) =>
      let w3 : World := { w2 with nframes := 1, active := 0, width := width, height := height }
      let loaded := load_images env.imread env.resize filename (w3.width : Int) (w3.height : Int)
        [] w3
      let r := main_switch env sig loaded.1 fuel loaded.2
      if r.returned then
        ⟨(r.world.emit .clear).emit .deleteMatrix, some 0, false⟩
      else
        ⟨r.world, none, false⟩

/-! ## Vocabulary for traces -/

/-- The trace of one blit of `image` to the canvas `target`: its recorded
calls as events. -/
def blit_events (image : Mat) (target : CanvasRef) : List Event :=
  (recorded_calls image).map (fun c => Event.setPixel target c.x c.y c.red c.green c.blue)

/-- The trace of `k` rounds of the idle wait in which the flag is read as
false. -/
def idle_polls : Nat → List Event
  | 0 => []
  | k + 1 => Event.readFlag false :: Event.sleep 1000 :: idle_polls k

/-- A sample resize operation (nearest neighbour) returning a grid of the
requested size. -/
def nearest_resize (m : Mat) (width height : Int) : Mat :=
  ⟨height.toNat, width.toNat,
   fun y x => m.at_ (y * m.rows / height.toNat) (x * m.cols / width.toNat)⟩

/-- A sample environment: every option parses, the device is a 2 by 2 panel,
every file decodes to `sample_pixel`. -/
def sample_env : Env :=
  { ParseOptionsFromFlags := fun argv => (true, argv)
    CreateFromOptions := some (2, 2)
    imread := fun _ => .ok sample_pixel
    resize := nearest_resize
    rng_fill := fun s _ _ => (fun _ _ => ⟨s % 180, s % 180, s % 180⟩, s + 1) }

/-- A sample environment in which no file can be decoded. -/
def unreadable_env : Env :=
  { sample_env with imread := fun _ => .threw "unreadable" }

/-- The actions that change what a buffer holds or which buffer is shown:
pixel writes and swaps. -/
def is_display : Event → Bool
  | .setPixel _ _ _ _ _ _ => true
  | .swapOnVSync _ _ => true
  | _ => false

/-- The world one full pass of the body of the frame loop of
`show_animated_image` leads to from `w`: flag read as false, `image` blitted
to the buffer `offscreen_canvas`, that buffer swapped in, pacing delay. -/
def after_frame (image : Mat) (offscreen_canvas : Nat) (w : World) : World :=
  { w with
    trace := w.trace ++ ([Event.readFlag false] ++ blit_events image (.frame offscreen_canvas)
      ++ [Event.swapOnVSync offscreen_canvas w.active, Event.usleep 10000])
    active := offscreen_canvas }

/-- A list of display actions that is no more than the tail of one blit of a
frame of `images` followed by its swap. -/
def within_one_frame (images : List Mat) (l : List Event) : Prop :=
  ∃ image ∈ images, ∃ target returned : Nat,
    l <:+ blit_events image (.frame target) ++ [Event.swapOnVSync target returned]

/-- The buffer the `k`-th blit of a double-buffered loop aims at, when the
loop starts with the freshly created buffer `created` while `shown` is on
display: the two alternate. -/
def playback_target (created shown k : Nat) : Nat :=
  if k % 2 = 0 then created else shown

/-- The display actions of the `k`-th round of an endless cyclic playback of
`images`: the blit of frame `k mod n` to the `k`-th target, then the one swap
that hands this target to the driver and gets the next target back. -/
def playback_round (images : List Mat) (created shown k : Nat) : List Event :=
  (match images[k % images.length]? with
    | some image => blit_events image (.frame (playback_target created shown k))
    | none => [])
  ++ [Event.swapOnVSync (playback_target created shown k) (playback_target created shown (k + 1))]

/-- The display actions of the first `m` rounds of the cyclic playback:
frames 0, 1, ..., n-1, 0, 1, ... in this order. -/
def playback_log (images : List Mat) (created shown : Nat) : Nat → List Event
  | 0 => []
  | m + 1 => playback_log images created shown m ++ playback_round images created shown m

/-- A world in which the device is open: one frame, number 0, on display on
a 2 by 2 panel, and nothing traced yet. -/
def sample_world : World := ⟨[], 1, 0, 2, 2⟩


/-- What a check of the double-buffering discipline remembers: the buffer on
display and the buffer that holds writes not yet swapped in. -/
structure Shown where
  active : Nat
  pending : Option Nat
  deriving DecidableEq, Repr

/-- One step of the check: a write to the live canvas or to the buffer on
display fails it, as does a write or a swap that leaves the writes made to
another buffer behind; a swap puts its buffer on display. -/
def offscreen_step : Option Shown → Event → Option Shown
  | none, _ => none
  | some _, .setPixel .matrix _ _ _ _ _ => none
  | some s, .setPixel (.frame id) _ _ _ _ _ =>
    if id ≠ s.active ∧ (s.pending = none ∨ s.pending = some id) then some ⟨s.active, some id⟩
    else none
  | some s, .swapOnVSync given _ =>
    if s.pending = none ∨ s.pending = some given then some ⟨given, none⟩ else none
  | some s, _ => some s

/-- The discipline the design document asks of the fallback path, on a trace
that starts with buffer `active` on display: every pixel write goes to a
buffer that is not on display, and that buffer is swapped in before anything
else is written and before the trace ends. -/
def offscreen_discipline (active : Nat) (l : List Event) : Bool :=
  match l.foldl offscreen_step (some ⟨active, none⟩) with
  | some s => s.pending.isNone
  | none => false

/-- The world one full pass of the loop body of `generate_random_images`
leads to from `w`: flag read as false, `image` refilled, flag read as false
again, `image` blitted to `offscreen_canvas`, swap, pacing delay. -/
def after_noise (image : Mat) (offscreen_canvas : Nat) (w : World) : World :=
  { w with
    trace := w.trace ++ ([Event.readFlag false, Event.rngFill, Event.readFlag false]
      ++ blit_events image (.frame offscreen_canvas)
      ++ [Event.swapOnVSync offscreen_canvas w.active, Event.usleep 10000])
    active := offscreen_canvas }

/-- The frame sequence and the world with which `main` enters its `switch`
when the options parse, one path is left and the device has the given size:
the result of the call of `load_images`. -/
def main_loaded (env : Env) (argv : List String) (width height : Nat) : List Mat × World :=
  load_images env.imread env.resize ((env.ParseOptionsFromFlags argv).2.getD 1 "")
    (width : Int) (height : Int) []
    { trace := [Event.parseOptions, Event.signal 15, Event.signal 2, Event.createFromOptions]
      nframes := 1
      active := 0
      width := width
      height := height }

/-! ## Properties of the blitter -/

theorem replay_nil {σ : Type} (S : Int → Int → Nat → Nat → Nat → σ → σ) (cv : σ) :
    replay S [] cv = cv := rfl

theorem replay_cons {σ : Type} (S : Int → Int → Nat → Nat → Nat → σ → σ) (u : PixelWrite)
    (ws : List PixelWrite) (cv : σ) :
    replay S (u :: ws) cv = replay S ws (S u.x u.y u.red u.green u.blue cv) := rfl

theorem replay_append {σ : Type} (S : Int → Int → Nat → Nat → Nat → σ → σ)
    (ws vs : List PixelWrite) (cv : σ) :
    replay S (ws ++ vs) cv = replay S vs (replay S ws cv) := by
  simp [replay, List.foldl_append]

theorem copy_image_row_eq_replay {σ : Type} (S : Int → Int → Nat → Nat → Nat → σ → σ)
    (image : Mat) (y : Nat) (cv : σ) :
    copy_image_row S image y cv = replay S (row_writes image y) cv := by
  simp [copy_image_row, replay, row_writes, List.foldl_map, cell_write, offset_x, offset_y,
    Vec3b.red, Vec3b.green, Vec3b.blue]

theorem copy_rows_eq_replay {σ : Type} (S : Int → Int → Nat → Nat → Nat → σ → σ)
    (image : Mat) (n : Nat) (cv : σ) :
    (List.range n).foldl (fun c y => copy_image_row S image y c) cv
      = replay S (rows_writes image n) cv := by
  induction n with
  | zero => rfl
  | succ n ih =>
    rw [List.range_succ, List.foldl_append, ih]
    simp [rows_writes, replay_append, copy_image_row_eq_replay, replay_cons, replay_nil]

theorem copy_image_to_canvas_eq_replay {σ : Type} (S : Int → Int → Nat → Nat → Nat → σ → σ)
    (image : Mat) (cv : σ) :
    copy_image_to_canvas S image cv = replay S (rows_writes image image.rows) cv :=
  copy_rows_eq_replay S image image.rows cv

theorem replay_recording (ws log : List PixelWrite) :
    replay RecordingCanvas.SetPixel ws log = log ++ ws := by
  induction ws generalizing log with
  | nil => simp [replay_nil]
  | cons u ws ih => simp [replay_cons, ih, RecordingCanvas.SetPixel]

theorem recorded_calls_eq (image : Mat) :
    recorded_calls image = rows_writes image image.rows := by
  simp [recorded_calls, copy_image_to_canvas_eq_replay, replay_recording]

theorem row_writes_length (image : Mat) (r : Nat) :
    (row_writes image r).length = image.cols := by
  simp [row_writes]

theorem rows_writes_length (image : Mat) (n : Nat) :
    (rows_writes image n).length = n * image.cols := by
  induction n with
  | zero => simp [rows_writes]
  | succ n ih => simp [rows_writes, ih, row_writes_length, Nat.succ_mul]

theorem rows_writes_getElem? (image : Mat) (n r c : Nat) (hr : r < n) (hc : c < image.cols) :
    (rows_writes image n)[r * image.cols + c]? = some (cell_write image r c) := by
  induction n with
  | zero => omega
  | succ n ih =>
    simp only [rows_writes]
    by_cases h : r < n
    · have hlt : r * image.cols + c < (rows_writes image n).length := by
        rw [rows_writes_length]
        calc r * image.cols + c < r * image.cols + image.cols := by omega
          _ = (r + 1) * image.cols := by ring
          _ ≤ n * image.cols := Nat.mul_le_mul_right _ h
      rw [List.getElem?_append_left hlt]
      exact ih h
    · have hrn : r = n := by omega
      subst hrn
      have hle : (rows_writes image r).length ≤ r * image.cols + c := by
        rw [rows_writes_length]; omega
      rw [List.getElem?_append_right hle, rows_writes_length]
      simp [row_writes, List.getElem?_map, List.getElem?_range hc]

theorem Canvas.SetPixel_same (x y : Int) (r g b r2 g2 b2 : Nat) (cv : Canvas) :
    Canvas.SetPixel x y r2 g2 b2 (Canvas.SetPixel x y r g b cv)
      = Canvas.SetPixel x y r2 g2 b2 cv := by
  unfold Canvas.SetPixel
  by_cases hb : 0 ≤ x ∧ x < cv.width ∧ 0 ≤ y ∧ y < cv.height
  · simp only [hb, and_self, if_true]
    congr 1
    funext i j
    by_cases hij : i = x ∧ j = y <;> simp [hij]
  · simp [hb]

theorem Canvas.SetPixel_comm (x y : Int) (r g b : Nat) (x2 y2 : Int) (r2 g2 b2 : Nat)
    (cv : Canvas) (hne : ¬ (x2 = x ∧ y2 = y)) :
    Canvas.SetPixel x2 y2 r2 g2 b2 (Canvas.SetPixel x y r g b cv)
      = Canvas.SetPixel x y r g b (Canvas.SetPixel x2 y2 r2 g2 b2 cv) := by
  unfold Canvas.SetPixel
  by_cases hu : 0 ≤ x ∧ x < cv.width ∧ 0 ≤ y ∧ y < cv.height
  · by_cases hv : 0 ≤ x2 ∧ x2 < cv.width ∧ 0 ≤ y2 ∧ y2 < cv.height
    · simp only [hu, hv, and_self, if_true]
      congr 1
      funext i j
      by_cases h1 : i = x2 ∧ j = y2
      · have h2 : ¬ (i = x ∧ j = y) := by
          rintro ⟨hx, hy⟩
          exact hne ⟨h1.1 ▸ hx, h1.2 ▸ hy⟩
        simp [h1, h2, hne]
      · simp [h1]
    · simp [hu, hv]
  · by_cases hv : 0 ≤ x2 ∧ x2 < cv.width ∧ 0 ≤ y2 ∧ y2 < cv.height
    · simp [hu, hv]
    · simp [hu, hv]

/-- On a sink where a write replaces an earlier write to the same coordinate
and commutes with writes to other coordinates, a write that a replayed list
repeats is absorbed by the replay. -/
theorem replay_absorb {σ : Type} (S : Int → Int → Nat → Nat → Nat → σ → σ)
    (hsame : ∀ (x y : Int) (r g b r2 g2 b2 : Nat) (cv : σ),
      S x y r2 g2 b2 (S x y r g b cv) = S x y r2 g2 b2 cv)
    (hcomm : ∀ (x y : Int) (r g b : Nat) (x2 y2 : Int) (r2 g2 b2 : Nat) (cv : σ),
      ¬ (x2 = x ∧ y2 = y) → S x2 y2 r2 g2 b2 (S x y r g b cv) = S x y r g b (S x2 y2 r2 g2 b2 cv))
    (ws : List PixelWrite) (u : PixelWrite) (hu : u ∈ ws) (cv : σ) :
    replay S ws (S u.x u.y u.red u.green u.blue cv) = replay S ws cv := by
  induction ws generalizing cv with
  | nil => simp at hu
  | cons v rest ih =>
    simp only [replay_cons]
    by_cases hcoord : v.x = u.x ∧ v.y = u.y
    · rw [hcoord.1, hcoord.2, hsame]
    · rcases List.mem_cons.mp hu with h | h
      · exact absurd ⟨by rw [h], by rw [h]⟩ hcoord
      · rw [hcomm _ _ _ _ _ _ _ _ _ _ _ hcoord, ih h]

theorem replay_after_part {σ : Type} (S : Int → Int → Nat → Nat → Nat → σ → σ)
    (hsame : ∀ (x y : Int) (r g b r2 g2 b2 : Nat) (cv : σ),
      S x y r2 g2 b2 (S x y r g b cv) = S x y r2 g2 b2 cv)
    (hcomm : ∀ (x y : Int) (r g b : Nat) (x2 y2 : Int) (r2 g2 b2 : Nat) (cv : σ),
      ¬ (x2 = x ∧ y2 = y) → S x2 y2 r2 g2 b2 (S x y r g b cv) = S x y r g b (S x2 y2 r2 g2 b2 cv))
    (ws part : List PixelWrite) (hsub : ∀ u ∈ part, u ∈ ws) (cv : σ) :
    replay S ws (replay S part cv) = replay S ws cv := by
  induction part generalizing cv with
  | nil => rfl
  | cons u part ih =>
    rw [replay_cons, ih (fun v hv => hsub v (List.mem_cons_of_mem _ hv))]
    exact replay_absorb S hsame hcomm ws u (hsub u (List.mem_cons_self _ _)) cv

/-! ## The claims about the blitter -/

/-- C1: for every pixel grid, `copy_image_to_canvas` issues `rows * cols`
calls of `SetPixel`; the call at position `r * cols + c` of the sequence is
the one for row `r`, column `c`, goes to device coordinate `(x = c, y = r)`
and carries that cell's red, green and blue values as the sink's red, green
and blue arguments; and on every sink the effect of the function is exactly
the effect of these calls in this order. -/
theorem C1_copy_image_to_canvas_writes (image : Mat) :
    (recorded_calls image).length = image.rows * image.cols ∧
    (∀ r c : Nat, r < image.rows → c < image.cols →
      (recorded_calls image)[r * image.cols + c]? =
        some ⟨(c : Int), (r : Int), (image.at_ r c).red, (image.at_ r c).green,
          (image.at_ r c).blue⟩) ∧
    (∀ (σ : Type) (SetPixel : Int → Int → Nat → Nat → Nat → σ → σ) (canvas : σ),
      copy_image_to_canvas SetPixel image canvas
        = replay SetPixel (recorded_calls image) canvas) := by
  refine ⟨?_, ?_, ?_⟩
  · rw [recorded_calls_eq, rows_writes_length]
  · intro r c hr hc
    rw [recorded_calls_eq]
    exact rows_writes_getElem? image image.rows r c hr hc
  · intro σ S cv
    rw [recorded_calls_eq]
    exact copy_image_to_canvas_eq_replay S image cv

/-- C1 at the example of the design document: the single cell with R=10,
G=20, B=30 (stored as 30, 20, 10) arrives at coordinate (0, 0) as red=10,
green=20, blue=30. -/
theorem C1_copy_image_to_canvas_writes_witness :
    (0 < sample_pixel.rows ∧ 0 < sample_pixel.cols) ∧
    (recorded_calls sample_pixel)[0 * sample_pixel.cols + 0]?
      = some ⟨0, 0, 10, 20, 30⟩ :=
  ⟨⟨by decide, by decide⟩,
   (C1_copy_image_to_canvas_writes sample_pixel).2.1 0 0 (by decide) (by decide)⟩

/-- C10: on every canvas whose `SetPixel` replaces what an earlier write put
at the same coordinate and does not disturb other coordinates (so writes to
different coordinates commute), for every pixel grid and every canvas state,
blitting the grid twice in succession leaves the canvas in the same state as
blitting it once. -/
theorem C10_copy_image_to_canvas_idempotent {σ : Type}
    (SetPixel : Int → Int → Nat → Nat → Nat → σ → σ)
    (hsame : ∀ (x y : Int) (r g b r2 g2 b2 : Nat) (cv : σ),
      SetPixel x y r2 g2 b2 (SetPixel x y r g b cv) = SetPixel x y r2 g2 b2 cv)
    (hcomm : ∀ (x y : Int) (r g b : Nat) (x2 y2 : Int) (r2 g2 b2 : Nat) (cv : σ),
      ¬ (x2 = x ∧ y2 = y) →
        SetPixel x2 y2 r2 g2 b2 (SetPixel x y r g b cv)
          = SetPixel x y r g b (SetPixel x2 y2 r2 g2 b2 cv))
    (image : Mat) (canvas : σ) :
    copy_image_to_canvas SetPixel image (copy_image_to_canvas SetPixel image canvas)
      = copy_image_to_canvas SetPixel image canvas := by
  simp only [copy_image_to_canvas_eq_replay]
  exact replay_after_part SetPixel hsame hcomm _ _ (fun _ h => h) canvas

/-- C10 on the pixel store: blitting a two-cell grid twice onto a blank 2 by 2
canvas gives the state one blit gives. -/
theorem C10_copy_image_to_canvas_idempotent_witness :
    copy_image_to_canvas Canvas.SetPixel sample_row
        (copy_image_to_canvas Canvas.SetPixel sample_row blank_canvas)
      = copy_image_to_canvas Canvas.SetPixel sample_row blank_canvas :=
  C10_copy_image_to_canvas_idempotent Canvas.SetPixel Canvas.SetPixel_same
    Canvas.SetPixel_comm sample_row blank_canvas

/-! ## Traces of the primitive actions -/

@[simp]
theorem World.emit_trace (e : Event) (w : World) :
    (w.emit e).trace = w.trace ++ [e] := rfl

@[simp]
theorem World.emit_nframes (e : Event) (w : World) : (w.emit e).nframes = w.nframes := rfl

@[simp]
theorem World.emit_active (e : Event) (w : World) : (w.emit e).active = w.active := rfl

@[simp]
theorem World.emit_width (e : Event) (w : World) : (w.emit e).width = w.width := rfl

@[simp]
theorem World.emit_height (e : Event) (w : World) : (w.emit e).height = w.height := rfl

@[simp]
theorem World.readFlag_trace (sig : Option Nat) (w : World) :
    (w.readFlag sig).trace = w.trace ++ [.readFlag (interrupt_received sig w)] := rfl

@[simp]
theorem World.readFlag_nframes (sig : Option Nat) (w : World) :
    (w.readFlag sig).nframes = w.nframes := rfl

@[simp]
theorem World.readFlag_active (sig : Option Nat) (w : World) :
    (w.readFlag sig).active = w.active := rfl

@[simp]
theorem CreateFrameCanvas_trace (w : World) :
    (CreateFrameCanvas w).trace = w.trace ++ [.createFrameCanvas w.nframes] := rfl

@[simp]
theorem CreateFrameCanvas_nframes (w : World) :
    (CreateFrameCanvas w).nframes = w.nframes + 1 := rfl

@[simp]
theorem CreateFrameCanvas_active (w : World) :
    (CreateFrameCanvas w).active = w.active := rfl

@[simp]
theorem SwapOnVSync_trace (other : Nat) (w : World) :
    (SwapOnVSync other w).trace = w.trace ++ [.swapOnVSync other w.active] := rfl

@[simp]
theorem SwapOnVSync_nframes (other : Nat) (w : World) :
    (SwapOnVSync other w).nframes = w.nframes := rfl

@[simp]
theorem SwapOnVSync_active (other : Nat) (w : World) :
    (SwapOnVSync other w).active = other := rfl

theorem replay_world (target : CanvasRef) (ws : List PixelWrite) (w : World) :
    replay (World.SetPixel target) ws w
      = { w with trace := w.trace ++
            ws.map (fun c => Event.setPixel target c.x c.y c.red c.green c.blue) } := by
  induction ws generalizing w with
  | nil => simp [replay_nil]
  | cons u ws ih => simp [replay_cons, ih, World.SetPixel, World.emit]

theorem blit_world (target : CanvasRef) (image : Mat) (w : World) :
    copy_image_to_canvas (World.SetPixel target) image w
      = { w with trace := w.trace ++ blit_events image target } := by
  rw [copy_image_to_canvas_eq_replay, replay_world, blit_events, recorded_calls_eq]

@[simp]
theorem blit_trace (target : CanvasRef) (image : Mat) (w : World) :
    (copy_image_to_canvas (World.SetPixel target) image w).trace
      = w.trace ++ blit_events image target := by
  rw [blit_world]

@[simp]
theorem blit_nframes (target : CanvasRef) (image : Mat) (w : World) :
    (copy_image_to_canvas (World.SetPixel target) image w).nframes = w.nframes := by
  rw [blit_world]

@[simp]
theorem blit_active (target : CanvasRef) (image : Mat) (w : World) :
    (copy_image_to_canvas (World.SetPixel target) image w).active = w.active := by
  rw [blit_world]

theorem blit_events_length (image : Mat) (target : CanvasRef) :
    (blit_events image target).length = image.rows * image.cols := by
  simp [blit_events, recorded_calls_eq, rows_writes_length]

/-- Once the handler has run the flag stays set: a read at a later position of
the trace yields true as well. -/
theorem interrupt_received_mono (sig : Option Nat) (w v : World)
    (hlen : w.trace.length ≤ v.trace.length) (h : interrupt_received sig w = true) :
    interrupt_received sig v = true := by
  cases sig with
  | none => simp [interrupt_received] at h
  | some t =>
    simp only [interrupt_received, decide_eq_true_eq] at h ⊢
    omega

/-! ## The claims about the loader -/

/-- C7: for positive target width and height and a file whose decode yields
a non-empty grid of any size, `load_images` leaves the output sequence with
exactly one grid, of width `target_width` and height `target_height`,
whatever the sequence held on entry, given that the resize operation returns
a grid of the requested (positive) dimensions. -/
theorem C7_load_images_single_resized (imread : String → ImreadResult)
    (resize : Mat → Int → Int → Mat) (filename : String) (target_width target_height : Int)
    (images : List Mat) (w : World) (image : Mat)
    (hw : 0 < target_width) (hh : 0 < target_height)
    (hdecode : imread filename = .ok image) (hnonempty : image.empty = false)
    (hresize : ∀ (m : Mat) (width height : Int), 0 < width → 0 < height →
      ((resize m width height).cols : Int) = width ∧
      ((resize m width height).rows : Int) = height) :
    ∃ grid : Mat,
      (load_images imread resize filename target_width target_height images w).1 = [grid] ∧
      (grid.cols : Int) = target_width ∧ (grid.rows : Int) = target_height := by
  refine ⟨resize image target_width target_height, ?_, hresize image _ _ hw hh⟩
  simp [load_images, hdecode, hnonempty]

/-- C7 on a 1 by 1 source enlarged to 4 by 3, with a stale sequence of two
grids on entry. -/
theorem C7_load_images_single_resized_witness :
    ((0 : Int) < 4 ∧ (0 : Int) < 3 ∧ sample_env.imread "a.png" = .ok sample_pixel ∧
      sample_pixel.empty = false) ∧
    ∃ grid : Mat,
      (load_images sample_env.imread nearest_resize "a.png" 4 3
        [sample_pixel, sample_pixel] World.init).1 = [grid] ∧
      (grid.cols : Int) = 4 ∧ (grid.rows : Int) = 3 :=
  ⟨⟨by decide, by decide, rfl, rfl⟩,
   C7_load_images_single_resized sample_env.imread nearest_resize "a.png" 4 3
    [sample_pixel, sample_pixel] World.init sample_pixel (by decide) (by decide) rfl rfl
    (by
      intro m width height hw hh
      simp only [nearest_resize]
      constructor
      · exact Int.toNat_of_nonneg (le_of_lt hw)
      · exact Int.toNat_of_nonneg (le_of_lt hh))⟩

/-- C8: when decoding raises an exception or returns an empty grid,
`load_images` returns with the output sequence empty, whatever it held on
entry; its only actions are the decode attempt and one diagnostic line, so no
resize is performed. -/
theorem C8_load_images_decode_failure (imread : String → ImreadResult)
    (resize : Mat → Int → Int → Mat) (filename : String) (target_width target_height : Int)
    (images : List Mat) (w : World)
    (hfail : (∃ what, imread filename = .threw what) ∨
      (∃ image, imread filename = .ok image ∧ image.empty = true)) :
    (load_images imread resize filename target_width target_height images w).1 = [] ∧
    (∃ text,
      (load_images imread resize filename target_width target_height images w).2.trace
        = w.trace ++ [.imread filename, .stdout text]) ∧
    (∀ width height, Event.resize width height ∉
      ((load_images imread resize filename target_width target_height images w).2.trace).drop
        w.trace.length) := by
  rcases hfail with ⟨what, h⟩ | ⟨image, h, hempty⟩
  · simp [load_images, h]
  · simp [load_images, h, hempty]

/-- C8 on a decode that throws, entered with a sequence of two grids. -/
theorem C8_load_images_decode_failure_witness :
    (∃ what, (fun _ : String => ImreadResult.threw "bad file") "a.txt" = .threw what) ∧
    (load_images (fun _ => .threw "bad file") nearest_resize "a.txt" 4 3
      [sample_pixel, sample_pixel] World.init).1 = [] :=
  ⟨⟨"bad file", rfl⟩,
   (C8_load_images_decode_failure (fun _ => .threw "bad file") nearest_resize "a.txt" 4 3
    [sample_pixel, sample_pixel] World.init (Or.inl ⟨"bad file", rfl⟩)).1⟩

/-! ## The idle wait -/

theorem idle_wait_stop (sig : Option Nat) (fuel : Nat) (w : World)
    (h : interrupt_received sig w = true) :
    idle_wait sig (fuel + 1) w = ⟨w.readFlag sig, true⟩ := by
  simp [idle_wait, h]

theorem idle_wait_step (sig : Option Nat) (fuel : Nat) (w : World)
    (h : interrupt_received sig w = false) :
    idle_wait sig (fuel + 1) w = idle_wait sig fuel ((w.readFlag sig).emit (.sleep 1000)) := by
  simp [idle_wait, h]

theorem idle_wait_spec (sig : Option Nat) (fuel : Nat) (w : World) :
    ∃ k, (idle_wait sig fuel w).world.trace
        = w.trace ++ idle_polls k ++
          (if (idle_wait sig fuel w).returned then [Event.readFlag true] else []) ∧
      (idle_wait sig fuel w).world.nframes = w.nframes ∧
      (idle_wait sig fuel w).world.active = w.active := by
  induction fuel generalizing w with
  | zero => exact ⟨0, by simp [idle_wait, idle_polls]⟩
  | succ fuel ih =>
    by_cases hflag : interrupt_received sig w = true
    · exact ⟨0, by simp [idle_wait_stop, hflag, idle_polls]⟩
    · obtain ⟨k, htrace, hn, ha⟩ := ih ((w.readFlag sig).emit (.sleep 1000))
      have hfalse : interrupt_received sig w = false := by simpa using hflag
      rw [idle_wait_step sig fuel w hfalse]
      refine ⟨k + 1, ?_, ?_, ?_⟩
      · rw [htrace]
        simp [idle_polls, hfalse]
      · simpa using hn
      · simpa using ha

theorem idle_wait_returns (t fuel : Nat) (w : World) (h : t < w.trace.length + fuel)
    (hpos : 0 < fuel) : (idle_wait (some t) fuel w).returned = true := by
  induction fuel generalizing w with
  | zero => omega
  | succ fuel ih =>
    by_cases hflag : interrupt_received (some t) w = true
    · simp [idle_wait_stop, hflag]
    · have hlt : w.trace.length < t := by
        simpa [interrupt_received] using hflag
      rw [idle_wait_step _ fuel w (by simpa using hflag)]
      apply ih
      · simp
        omega
      · omega

/-- C6: when the loaded sequence has exactly one frame, the dispatch of
`main` blits that frame once onto the live canvas (`rows * cols` writes, all
aimed at the matrix itself) and from then on only reads the interrupt flag
and sleeps: no buffer is created, no swap happens, no further pixel is
written; it returns exactly when a read of the flag yields true, which
happens once the handler has run. -/
theorem C6_single_frame_blit_then_idle (env : Env) (sig : Option Nat) (image : Mat)
    (fuel : Nat) (w : World) :
    (∃ k, (main_switch env sig [image] fuel w).world.trace
        = w.trace ++ blit_events image .matrix ++ idle_polls k ++
          (if (main_switch env sig [image] fuel w).returned then [Event.readFlag true]
            else [])) ∧
    (blit_events image .matrix).length = image.rows * image.cols ∧
    (∀ e ∈ blit_events image .matrix, ∃ x y r g b, e = Event.setPixel .matrix x y r g b) ∧
    (main_switch env sig [image] fuel w).world.nframes = w.nframes ∧
    (main_switch env sig [image] fuel w).world.active = w.active ∧
    (∀ t extra : Nat, (main_switch env (some t) [image] (t + 1 + extra) w).returned = true) := by
  refine ⟨?_, blit_events_length image .matrix, ?_, ?_, ?_, ?_⟩
  · obtain ⟨k, htrace, -, -⟩ :=
      idle_wait_spec sig fuel (copy_image_to_canvas (World.SetPixel .matrix) image w)
    exact ⟨k, by simpa [main_switch] using htrace⟩
  · intro e he
    simp only [blit_events, List.mem_map] at he
    obtain ⟨c, -, rfl⟩ := he
    exact ⟨_, _, _, _, _, rfl⟩
  · obtain ⟨k, -, hn, -⟩ :=
      idle_wait_spec sig fuel (copy_image_to_canvas (World.SetPixel .matrix) image w)
    simpa [main_switch] using hn
  · obtain ⟨k, -, -, ha⟩ :=
      idle_wait_spec sig fuel (copy_image_to_canvas (World.SetPixel .matrix) image w)
    simpa [main_switch] using ha
  · intro t extra
    simp only [main_switch]
    apply idle_wait_returns
    · omega
    · omega

/-! ## The animation loop, step by step -/

theorem show_animated_image_for_break (sig : Option Nat) (image : Mat) (rest : List Mat)
    (off : Nat) (w : World) (h : interrupt_received sig w = true) :
    show_animated_image_for sig (image :: rest) off w = (w.readFlag sig, off) := by
  simp [show_animated_image_for, h]

theorem show_animated_image_for_step (sig : Option Nat) (image : Mat) (rest : List Mat)
    (off : Nat) (w : World) (h : interrupt_received sig w = false) :
    show_animated_image_for sig (image :: rest) off w
      = show_animated_image_for sig rest w.active (after_frame image off w) := by
  simp [show_animated_image_for, h, blit_world, SwapOnVSync, World.emit, World.readFlag,
    after_frame]

theorem show_animated_image_while_stop (sig : Option Nat) (images : List Mat) (fuel off : Nat)
    (w : World) (h : interrupt_received sig w = true) :
    show_animated_image_while sig images (fuel + 1) off w = ⟨w.readFlag sig, true⟩ := by
  simp [show_animated_image_while, h]

theorem show_animated_image_while_step (sig : Option Nat) (images : List Mat) (fuel off : Nat)
    (w : World) (h : interrupt_received sig w = false) :
    show_animated_image_while sig images (fuel + 1) off w
      = show_animated_image_while sig images fuel
          (show_animated_image_for sig images off (w.emit (.readFlag false))).2
          (show_animated_image_for sig images off (w.emit (.readFlag false))).1 := by
  simp [show_animated_image_while, h, World.readFlag]

theorem show_animated_image_for_extends (sig : Option Nat) (rest : List Mat) (off : Nat)
    (w : World) :
    ∃ evs, (show_animated_image_for sig rest off w).1.trace = w.trace ++ evs := by
  induction rest generalizing off w with
  | nil => exact ⟨[], by simp [show_animated_image_for]⟩
  | cons image rest ih =>
    by_cases hflag : interrupt_received sig w = true
    · exact ⟨_, by rw [show_animated_image_for_break _ _ _ _ _ hflag]; rfl⟩
    · rw [show_animated_image_for_step _ _ _ _ _ (by simpa using hflag)]
      obtain ⟨evs, h⟩ := ih w.active (after_frame image off w)
      exact ⟨_, by rw [h, after_frame, List.append_assoc]⟩

theorem show_animated_image_while_extends (sig : Option Nat) (images : List Mat)
    (fuel off : Nat) (w : World) :
    ∃ evs, (show_animated_image_while sig images fuel off w).world.trace = w.trace ++ evs := by
  induction fuel generalizing off w with
  | zero => exact ⟨[], by simp [show_animated_image_while]⟩
  | succ fuel ih =>
    by_cases hflag : interrupt_received sig w = true
    · exact ⟨_, by rw [show_animated_image_while_stop _ _ _ _ _ hflag]; rfl⟩
    · rw [show_animated_image_while_step _ _ _ _ _ (by simpa using hflag)]
      obtain ⟨evs1, h1⟩ := show_animated_image_for_extends sig images off
        (w.emit (.readFlag false))
      obtain ⟨evs2, h2⟩ := ih
        (show_animated_image_for sig images off (w.emit (.readFlag false))).2
        (show_animated_image_for sig images off (w.emit (.readFlag false))).1
      exact ⟨_, by rw [h2, h1, World.emit_trace, List.append_assoc, List.append_assoc]⟩

theorem filter_display_blit (image : Mat) (target : CanvasRef) :
    (blit_events image target).filter is_display = blit_events image target := by
  rw [List.filter_eq_self]
  intro e he
  simp only [blit_events, List.mem_map] at he
  obtain ⟨c, -, rfl⟩ := he
  rfl

theorem within_one_frame_nil (images : List Mat) (himg : images ≠ []) :
    within_one_frame images [] := by
  obtain ⟨image, rest, rfl⟩ := List.exists_cons_of_ne_nil himg
  exact ⟨image, List.mem_cons_self _ _, 0, 0, List.nil_suffix⟩

/-! ## Cancellation bound of the animation loop -/

theorem interrupt_received_some (t : Nat) (w : World) :
    interrupt_received (some t) w = decide (t ≤ w.trace.length) := rfl

/-- From a world the signal has already reached, the frame loop adds no
display action. -/
theorem show_animated_image_for_after_signal (t : Nat) (rest : List Mat) (off : Nat)
    (w : World) (h : t ≤ w.trace.length) :
    ∃ tail, (show_animated_image_for (some t) rest off w).1.trace = w.trace ++ tail ∧
      tail.filter is_display = [] := by
  cases rest with
  | nil => exact ⟨[], by simp [show_animated_image_for]⟩
  | cons image rest =>
    have hflag : interrupt_received (some t) w = true := by
      simp [interrupt_received_some, h]
    rw [show_animated_image_for_break _ _ _ _ _ hflag]
    exact ⟨_, rfl, rfl⟩

theorem filter_display_after_frame_suffix (image : Mat) (off ret k : Nat) :
    (([Event.readFlag false] ++ blit_events image (.frame off)
        ++ [Event.swapOnVSync off ret, Event.usleep 10000]).drop k).filter is_display
      <:+ blit_events image (.frame off) ++ [Event.swapOnVSync off ret] := by
  have h := List.IsSuffix.filter is_display
    (List.drop_suffix k ([Event.readFlag false] ++ blit_events image (.frame off)
        ++ [Event.swapOnVSync off ret, Event.usleep 10000]))
  have hall : ([Event.readFlag false] ++ blit_events image (.frame off)
        ++ [Event.swapOnVSync off ret, Event.usleep 10000]).filter is_display
      = blit_events image (.frame off) ++ [Event.swapOnVSync off ret] := by
    simp [List.filter_append, filter_display_blit, List.filter_cons, is_display]
  rwa [hall] at h

/-- From a world the signal has not yet passed, the display actions of the
frame loop that come after the signal stay within one frame. -/
theorem show_animated_image_for_bound (images : List Mat) (himg : images ≠ []) (t : Nat)
    (rest : List Mat) (hrest : ∀ image ∈ rest, image ∈ images) (off : Nat) (w : World)
    (h : w.trace.length ≤ t) :
    within_one_frame images
      (((show_animated_image_for (some t) rest off w).1.trace.drop t).filter is_display) := by
  induction rest generalizing off w with
  | nil =>
    simp only [show_animated_image_for, List.drop_eq_nil_of_le h, List.filter_nil]
    exact within_one_frame_nil images himg
  | cons image rest ih =>
    by_cases hflag : interrupt_received (some t) w = true
    · rw [show_animated_image_for_break _ _ _ _ _ hflag]
      have hdrop : (w.trace ++ [Event.readFlag (interrupt_received (some t) w)]).drop t
          = [Event.readFlag true] := by
        have ht : t = w.trace.length := by
          simp [interrupt_received_some] at hflag
          omega
        rw [hflag, ht]
        simp
      simp only [World.readFlag_trace, hdrop]
      exact within_one_frame_nil images himg
    · have hlt : w.trace.length < t := by
        simpa [interrupt_received_some] using hflag
      rw [show_animated_image_for_step _ _ _ _ _ (by simpa using hflag)]
      by_cases hnext : (after_frame image off w).trace.length ≤ t
      · exact ih (fun i hi => hrest i (List.mem_cons_of_mem _ hi)) _ _ hnext
      · obtain ⟨tail, htail, hnone⟩ := show_animated_image_for_after_signal t rest w.active
          (after_frame image off w) (by omega)
        rw [htail, List.drop_append_of_le_length (by omega), List.filter_append, hnone,
          List.append_nil]
        have hpre : (after_frame image off w).trace.drop t
            = ([Event.readFlag false] ++ blit_events image (.frame off)
                ++ [Event.swapOnVSync off w.active, Event.usleep 10000]).drop
                (t - w.trace.length) := by
          simp only [after_frame]
          rw [List.drop_append_eq_append_drop, List.drop_eq_nil_of_le (le_of_lt hlt),
            List.nil_append]
        rw [hpre]
        exact ⟨image, hrest image (List.mem_cons_self _ _), off, w.active,
          filter_display_after_frame_suffix image off w.active _⟩

theorem show_animated_image_while_bound (images : List Mat) (himg : images ≠ []) (t : Nat)
    (fuel off : Nat) (w : World) (h : w.trace.length ≤ t) (hfuel : t < w.trace.length + fuel) :
    (show_animated_image_while (some t) images fuel off w).returned = true ∧
    within_one_frame images
      (((show_animated_image_while (some t) images fuel off w).world.trace.drop t).filter
        is_display) := by
  induction fuel generalizing off w with
  | zero => omega
  | succ fuel ih =>
    by_cases hflag : interrupt_received (some t) w = true
    · rw [show_animated_image_while_stop _ _ _ _ _ hflag]
      refine ⟨rfl, ?_⟩
      have ht : t = w.trace.length := by
        simp [interrupt_received_some] at hflag
        omega
      have hdrop : (w.trace ++ [Event.readFlag (interrupt_received (some t) w)]).drop t
          = [Event.readFlag true] := by
        rw [hflag, ht]
        simp
      simp only [World.readFlag_trace, hdrop]
      exact within_one_frame_nil images himg
    · have hlt : w.trace.length < t := by
        simpa [interrupt_received_some] using hflag
      rw [show_animated_image_while_step _ _ _ _ _ (by simpa using hflag)]
      obtain ⟨evs, hevs⟩ := show_animated_image_for_extends (some t) images off
        (w.emit (.readFlag false))
      have hbound := show_animated_image_for_bound images himg t images (fun _ hi => hi) off
        (w.emit (.readFlag false)) (by simp; omega)
      have hlen : w.trace.length + 1 ≤
          (show_animated_image_for (some t) images off (w.emit (.readFlag false))).1.trace.length := by
        rw [hevs]
        simp
      by_cases hnext :
          (show_animated_image_for (some t) images off (w.emit (.readFlag false))).1.trace.length ≤ t
      · exact ih _ _ hnext (by omega)
      · obtain ⟨fuel, rfl⟩ : ∃ f, fuel = f + 1 := ⟨fuel - 1, by omega⟩
        have hflag2 : interrupt_received (some t)
            (show_animated_image_for (some t) images off (w.emit (.readFlag false))).1 = true := by
          simp only [interrupt_received_some, decide_eq_true_eq]
          omega
        rw [show_animated_image_while_stop _ _ _ _ _ hflag2]
        refine ⟨rfl, ?_⟩
        simp only [World.readFlag_trace]
        rw [List.drop_append_of_le_length (by omega), List.filter_append]
        simpa [is_display] using hbound

/-- C3: in `show_animated_image` on a non-empty sequence, let the handler set
the flag at any position `p` of the function's own trace.  Then the function
returns, and the display actions it performs from that position on are no
more than the tail of one blit of one frame followed by its one swap: the
remaining frames are not drained. -/
theorem C3_cancellation_within_one_frame (images : List Mat) (himg : images ≠ [])
    (p fuel : Nat) (w : World) (hfuel : p < fuel) :
    (show_animated_image (some (w.trace.length + p)) images fuel w).returned = true ∧
    ∃ image ∈ images, ∃ target returned : Nat,
      (((show_animated_image (some (w.trace.length + p)) images fuel w).world.trace.drop
          (w.trace.length + p)).filter is_display)
        <:+ blit_events image (.frame target) ++ [Event.swapOnVSync target returned] := by
  unfold show_animated_image
  cases p with
  | zero =>
    obtain ⟨fuel, rfl⟩ : ∃ f, fuel = f + 1 := ⟨fuel - 1, by omega⟩
    have hflag : interrupt_received (some (w.trace.length + 0)) (CreateFrameCanvas w) = true := by
      simp [interrupt_received_some]
    rw [show_animated_image_while_stop _ _ _ _ _ hflag]
    refine ⟨rfl, ?_⟩
    have h := within_one_frame_nil images himg
    simpa [within_one_frame, is_display] using h
  | succ p =>
    exact show_animated_image_while_bound images himg (w.trace.length + (p + 1)) fuel w.nframes
      (CreateFrameCanvas w) (by simp) (by simp; omega)

/-- C3 with the signal arriving in the middle of a three-frame run. -/
theorem C3_cancellation_within_one_frame_witness :
    ([sample_pixel, sample_row, sample_pixel] ≠ [] ∧ 4 < 5) ∧
    (show_animated_image (some (sample_world.trace.length + 4))
      [sample_pixel, sample_row, sample_pixel] 5 sample_world).returned = true :=
  ⟨⟨by simp, by decide⟩,
   (C3_cancellation_within_one_frame [sample_pixel, sample_row, sample_pixel] (by simp) 4 5
      sample_world (by decide)).1⟩

/-! ## Frame order of the animation loop -/

theorem succ_mod_cases (k n : Nat) (hn : 0 < n) :
    (k % n + 1 < n ∧ (k + 1) % n = k % n + 1) ∨ (k % n + 1 = n ∧ (k + 1) % n = 0) := by
  have hlt : k % n < n := Nat.mod_lt k hn
  have hk : (k + 1) % n = (k % n + 1) % n := by
    conv_lhs => rw [← Nat.div_add_mod k n, Nat.add_assoc, Nat.mul_add_mod]
  by_cases h : k % n + 1 < n
  · exact Or.inl ⟨h, by rw [hk, Nat.mod_eq_of_lt h]⟩
  · have he : k % n + 1 = n := by omega
    exact Or.inr ⟨he, by rw [hk, he, Nat.mod_self]⟩

theorem playback_target_add_two (created shown k : Nat) :
    playback_target created shown (k + 2) = playback_target created shown k := by
  simp [playback_target, Nat.add_mod]

theorem playback_log_succ (images : List Mat) (created shown k : Nat) (image : Mat)
    (h : images[k % images.length]? = some image) :
    playback_log images created shown (k + 1)
      = playback_log images created shown k
        ++ (blit_events image (.frame (playback_target created shown k))
        ++ [Event.swapOnVSync (playback_target created shown k)
              (playback_target created shown (k + 1))]) := by
  simp [playback_log, playback_round, h]

/-- The frame loop keeps the playback order: entered before round `k` with the
frames from position `k mod n` on still to visit, it leaves before some round
`k'`, at a pass boundary unless the flag is set. -/
theorem show_animated_image_for_order (sig : Option Nat) (images : List Mat)
    (himg : images ≠ []) (pre : List Event) (created shown : Nat)
    (rest : List Mat) (off : Nat) (w : World) (k : Nat) (evs : List Event)
    (htrace : w.trace = pre ++ evs)
    (hlog : evs.filter is_display = playback_log images created shown k)
    (hoff : off = playback_target created shown k)
    (hactive : w.active = playback_target created shown (k + 1))
    (hrest : rest = images.drop (k % images.length) ∨ (rest = [] ∧ k % images.length = 0)) :
    ∃ k2 evs2,
      (show_animated_image_for sig rest off w).1.trace = pre ++ evs2 ∧
      evs2.filter is_display = playback_log images created shown k2 ∧
      (show_animated_image_for sig rest off w).2 = playback_target created shown k2 ∧
      (show_animated_image_for sig rest off w).1.active
        = playback_target created shown (k2 + 1) ∧
      (k2 % images.length = 0 ∨
        interrupt_received sig (show_animated_image_for sig rest off w).1 = true) ∧
      (sig = none → k2 = k + rest.length) := by
  have hn : 0 < images.length := List.length_pos.mpr himg
  induction rest generalizing off w k evs with
  | nil =>
    refine ⟨k, evs, htrace, hlog, hoff, hactive, Or.inl ?_, fun _ => rfl⟩
    rcases hrest with h | ⟨-, h⟩
    · have hlen := congrArg List.length h
      simp only [List.length_nil, List.length_drop] at hlen
      have := Nat.mod_lt k hn
      omega
    · exact h
  | cons image rest ih =>
    have hdrop : image :: rest = images.drop (k % images.length) := by
      rcases hrest with h | ⟨h, -⟩
      · exact h
      · exact absurd h (List.cons_ne_nil _ _)
    have hlt : k % images.length < images.length := Nat.mod_lt k hn
    have hget : images[k % images.length]? = some image := by
      have h0 := congrArg (fun l => l[0]?) hdrop
      simp only [List.getElem?_cons_zero, List.getElem?_drop, Nat.add_zero] at h0
      exact h0.symm
    have htail : rest = images.drop (k % images.length + 1) := by
      have h1 := congrArg List.tail hdrop
      simpa [List.tail_drop] using h1
    by_cases hflag : interrupt_received sig w = true
    · rw [show_animated_image_for_break _ _ _ _ _ hflag]
      refine ⟨k, evs ++ [Event.readFlag (interrupt_received sig w)], ?_, ?_, hoff, hactive,
        Or.inr ?_, ?_⟩
      · simp [htrace]
      · simp [List.filter_append, hlog, is_display]
      · exact interrupt_received_mono sig w _ (by simp) hflag
      · intro hnone
        rw [hnone] at hflag
        exact absurd hflag (by simp [interrupt_received])
    · rw [show_animated_image_for_step _ _ _ _ _ (by simpa using hflag)]
      have hlog2 : (evs ++ ([Event.readFlag false] ++ blit_events image (.frame off)
          ++ [Event.swapOnVSync off w.active, Event.usleep 10000])).filter is_display
          = playback_log images created shown (k + 1) := by
        rw [playback_log_succ images created shown k image hget, ← hoff, ← hactive]
        simp [List.filter_append, hlog, filter_display_blit, is_display, List.filter_cons]
      have hactive2 : (after_frame image off w).active
          = playback_target created shown (k + 1 + 1) := by
        simp only [after_frame]
        rw [playback_target_add_two, hoff]
      have hrest2 : rest = images.drop ((k + 1) % images.length) ∨
          (rest = [] ∧ (k + 1) % images.length = 0) := by
        rcases succ_mod_cases k images.length hn with ⟨-, h⟩ | ⟨hend, h⟩
        · exact Or.inl (by rw [h, htail])
        · refine Or.inr ⟨?_, h⟩
          rw [htail, hend, List.drop_length]
      obtain ⟨k2, evs2, h1, h2, h3, h4, h5, h6⟩ := ih w.active (after_frame image off w) (k + 1)
        (evs ++ ([Event.readFlag false] ++ blit_events image (.frame off)
          ++ [Event.swapOnVSync off w.active, Event.usleep 10000]))
        (by simp [after_frame, htrace]) hlog2 hactive hactive2 hrest2
      exact ⟨k2, evs2, h1, h2, h3, h4, h5, fun hnone => by
        rw [h6 hnone, List.length_cons]
        omega⟩

theorem show_animated_image_while_order (sig : Option Nat) (images : List Mat)
    (himg : images ≠ []) (pre : List Event) (created shown : Nat)
    (fuel off : Nat) (w : World) (k : Nat) (evs : List Event)
    (htrace : w.trace = pre ++ evs)
    (hlog : evs.filter is_display = playback_log images created shown k)
    (hoff : off = playback_target created shown k)
    (hactive : w.active = playback_target created shown (k + 1))
    (hpass : k % images.length = 0 ∨ interrupt_received sig w = true) :
    ∃ k2 evs2,
      (show_animated_image_while sig images fuel off w).world.trace = pre ++ evs2 ∧
      evs2.filter is_display = playback_log images created shown k2 ∧
      (sig = none → k2 = k + fuel * images.length) := by
  induction fuel generalizing off w k evs with
  | zero => exact ⟨k, evs, htrace, hlog, fun _ => by simp⟩
  | succ fuel ih =>
    by_cases hflag : interrupt_received sig w = true
    · rw [show_animated_image_while_stop _ _ _ _ _ hflag]
      refine ⟨k, evs ++ [Event.readFlag (interrupt_received sig w)], ?_, ?_, ?_⟩
      · simp [htrace]
      · simp [List.filter_append, hlog, is_display]
      · intro hnone
        rw [hnone] at hflag
        exact absurd hflag (by simp [interrupt_received])
    · rw [show_animated_image_while_step _ _ _ _ _ (by simpa using hflag)]
      have hk : k % images.length = 0 := by
        rcases hpass with h | h
        · exact h
        · exact absurd h hflag
      obtain ⟨k2, evs2, h1, h2, h3, h4, h5, h6⟩ :=
        show_animated_image_for_order sig images himg pre created shown images off
          (w.emit (.readFlag false)) k (evs ++ [Event.readFlag false])
          (by simp [htrace]) (by simp [List.filter_append, hlog, is_display]) hoff
          (by simpa using hactive) (Or.inl (by rw [hk, List.drop_zero]))
      obtain ⟨k3, evs3, g1, g2, g3⟩ := ih _ _ k2 evs2 h1 h2 h3 h4 h5
      exact ⟨k3, evs3, g1, g2, fun hnone => by
        rw [g3 hnone, h6 hnone, Nat.succ_mul]
        omega⟩

/-- C4: for a non-empty frame sequence of length `n` and every run of
`show_animated_image`, however far it has got, the display actions of the run
are exactly the first `m` rounds of the cyclic playback, for some `m`: the
`k`-th blit is of frame `k mod n` (which exists), it is followed at once by
exactly one swap of the buffer just written, and the buffer that swap returns
is the target of the next blit.  While no signal arrives the playback wraps
round for ever: after `passes` passes over the sequence `m` is `passes * n`. -/
theorem C4_frames_in_cyclic_order (images : List Mat) (himg : images ≠ [])
    (sig : Option Nat) (fuel : Nat) (w : World) :
    (∃ m, ((show_animated_image sig images fuel w).world.trace.drop w.trace.length).filter
        is_display = playback_log images w.nframes w.active m) ∧
    (∀ k, ∃ image, images[k % images.length]? = some image) ∧
    (∀ passes, ((show_animated_image none images passes w).world.trace.drop
        w.trace.length).filter is_display
      = playback_log images w.nframes w.active (passes * images.length)) := by
  have hrun : ∀ (s : Option Nat) (f : Nat), ∃ m,
      ((show_animated_image s images f w).world.trace.drop w.trace.length).filter is_display
        = playback_log images w.nframes w.active m ∧
      (s = none → m = f * images.length) := by
    intro s f
    obtain ⟨m, evs, h1, h2, h3⟩ :=
      show_animated_image_while_order s images himg w.trace w.nframes w.active f
        w.nframes (CreateFrameCanvas w) 0 [Event.createFrameCanvas w.nframes]
        (by simp) (by simp [playback_log, is_display, List.filter_cons])
        (by simp [playback_target]) (by simp [playback_target]) (Or.inl (Nat.zero_mod _))
    refine ⟨m, ?_, fun hs => by simpa using h3 hs⟩
    unfold show_animated_image
    rw [h1, List.drop_left, h2]
  refine ⟨?_, ?_, ?_⟩
  · obtain ⟨m, hm, -⟩ := hrun sig fuel
    exact ⟨m, hm⟩
  · intro k
    have hlt : k % images.length < images.length :=
      Nat.mod_lt k (List.length_pos.mpr himg)
    exact ⟨images[k % images.length], List.getElem?_eq_getElem hlt⟩
  · intro passes
    obtain ⟨m, hm, hcount⟩ := hrun none passes
    rw [hm, hcount rfl]

/-- C4 on the three-frame scenario of the design document: two passes with no
signal show frames 0, 1, 2, 0, 1, 2. -/
theorem C4_frames_in_cyclic_order_witness :
    [sample_pixel, sample_row, sample_pixel] ≠ [] ∧
    ((show_animated_image none [sample_pixel, sample_row, sample_pixel] 2
        sample_world).world.trace.drop sample_world.trace.length).filter is_display
      = playback_log [sample_pixel, sample_row, sample_pixel] sample_world.nframes
          sample_world.active (2 * [sample_pixel, sample_row, sample_pixel].length) :=
  ⟨by simp,
   (C4_frames_in_cyclic_order [sample_pixel, sample_row, sample_pixel] (by simp) none 2
      sample_world).2.2 2⟩

/-! ## The dispatch on two or more frames -/

/-- C2 fails on the code: on a sequence of two frames, with the flag never
set, the dispatch of `main` returns at once with nothing done: no buffer is
acquired, nothing is blitted, nothing is swapped. -/
theorem C2_counterexample_two_frames_not_played :
    (main_switch sample_env none [sample_pixel, sample_row] 3 sample_world).world.trace = [] ∧
    (main_switch sample_env none [sample_pixel, sample_row] 3 sample_world).returned = true ∧
    ¬ (∃ id, Event.createFrameCanvas id ∈
        (main_switch sample_env none [sample_pixel, sample_row] 3 sample_world).world.trace) ∧
    ¬ (∃ e ∈ (main_switch sample_env none [sample_pixel, sample_row] 3 sample_world).world.trace,
        is_display e = true) := by
  simp [main_switch, sample_world]

/-- C2 as amended: on a sequence of two or more frames the dispatch of `main`
does nothing and returns at once (the call of `show_animated_image` is
disabled); `show_animated_image` itself, entered with a non-empty sequence and
an iteration budget while the flag stays false over its first two reads,
acquires an offscreen buffer, blits the first frame into it and swaps it with
the live canvas before anything else. -/
theorem C2_dispatch_skips_animation (env : Env) (sig : Option Nat) (images : List Mat)
    (fuel : Nat) (w : World) (hlen : 2 ≤ images.length) :
    main_switch env sig images fuel w = ⟨w, true⟩ ∧
    (∀ (image : Mat) (rest : List Mat), images = image :: rest →
      (∀ t, sig = some t → w.trace.length + 2 < t) → 0 < fuel →
      (w.trace ++ ([Event.createFrameCanvas w.nframes, Event.readFlag false,
          Event.readFlag false] ++ blit_events image (.frame w.nframes)
          ++ [Event.swapOnVSync w.nframes w.active, Event.usleep 10000]))
        <+: (show_animated_image sig images fuel w).world.trace) := by
  constructor
  · match images, hlen with
    | _ :: _ :: _, _ => rfl
  · intro image rest himages hsig hfuel
    subst himages
    obtain ⟨fuel, rfl⟩ : ∃ f, fuel = f + 1 := ⟨fuel - 1, by omega⟩
    have hflag1 : interrupt_received sig (CreateFrameCanvas w) = false := by
      cases sig with
      | none => rfl
      | some t =>
        have := hsig t rfl
        simp only [interrupt_received_some, CreateFrameCanvas_trace, List.length_append,
          List.length_singleton, decide_eq_false_iff_not]
        omega
    have hflag2 : interrupt_received sig ((CreateFrameCanvas w).emit (.readFlag false))
        = false := by
      cases sig with
      | none => rfl
      | some t =>
        have := hsig t rfl
        simp only [interrupt_received_some, World.emit_trace, CreateFrameCanvas_trace,
          List.length_append, List.length_singleton, decide_eq_false_iff_not]
        omega
    unfold show_animated_image
    rw [show_animated_image_while_step _ _ _ _ _ hflag1,
      show_animated_image_for_step _ _ _ _ _ hflag2]
    obtain ⟨evs2, h2⟩ := show_animated_image_while_extends sig (image :: rest) fuel
      (show_animated_image_for sig rest
        ((CreateFrameCanvas w).emit (.readFlag false)).active
        (after_frame image w.nframes ((CreateFrameCanvas w).emit (.readFlag false)))).2
      (show_animated_image_for sig rest
        ((CreateFrameCanvas w).emit (.readFlag false)).active
        (after_frame image w.nframes ((CreateFrameCanvas w).emit (.readFlag false)))).1
    obtain ⟨evs1, h1⟩ := show_animated_image_for_extends sig rest
      ((CreateFrameCanvas w).emit (.readFlag false)).active
      (after_frame image w.nframes ((CreateFrameCanvas w).emit (.readFlag false)))
    rw [h2, h1]
    refine ⟨evs1 ++ evs2, ?_⟩
    simp [after_frame]

/-- C2 as amended, on two frames: the dispatch leaves the world untouched,
and a direct call with the flag never set starts with the first frame. -/
theorem C2_dispatch_skips_animation_witness :
    2 ≤ [sample_pixel, sample_row].length ∧
    main_switch sample_env none [sample_pixel, sample_row] 3 sample_world
      = ⟨sample_world, true⟩ ∧
    (sample_world.trace ++ ([Event.createFrameCanvas sample_world.nframes,
        Event.readFlag false, Event.readFlag false]
        ++ blit_events sample_pixel (.frame sample_world.nframes)
        ++ [Event.swapOnVSync sample_world.nframes sample_world.active, Event.usleep 10000]))
      <+: (show_animated_image none [sample_pixel, sample_row] 3 sample_world).world.trace :=
  ⟨by decide,
   (C2_dispatch_skips_animation sample_env none [sample_pixel, sample_row] 3 sample_world
      (by decide)).1,
   (C2_dispatch_skips_animation sample_env none [sample_pixel, sample_row] 3 sample_world
      (by decide)).2 sample_pixel [sample_row] rfl (fun _ h => nomatch h) (by decide)⟩

/-! ## The fallback generator -/

theorem generate_random_images_while_stop (rf : Nat → Nat → Nat → (Nat → Nat → Vec3b) × Nat)
    (sig : Option Nat) (fuel rng : Nat) (image : Mat) (off : Nat) (w : World)
    (h : interrupt_received sig w = true) :
    generate_random_images_while rf sig (fuel + 1) rng image off w = ⟨w.readFlag sig, true⟩ := by
  simp [generate_random_images_while, h]

theorem generate_random_images_while_break (rf : Nat → Nat → Nat → (Nat → Nat → Vec3b) × Nat)
    (sig : Option Nat) (fuel rng : Nat) (image : Mat) (off : Nat) (w : World)
    (h : interrupt_received sig w = false)
    (h2 : interrupt_received sig ((w.emit (.readFlag false)).emit .rngFill) = true) :
    generate_random_images_while rf sig (fuel + 1) rng image off w
      = ⟨(((w.emit (.readFlag false)).emit .rngFill).emit (.readFlag true)), true⟩ := by
  simp [generate_random_images_while, h, h2, World.readFlag]

theorem generate_random_images_while_step (rf : Nat → Nat → Nat → (Nat → Nat → Vec3b) × Nat)
    (sig : Option Nat) (fuel rng : Nat) (image : Mat) (off : Nat) (w : World)
    (h : interrupt_received sig w = false)
    (h2 : interrupt_received sig ((w.emit (.readFlag false)).emit .rngFill) = false) :
    generate_random_images_while rf sig (fuel + 1) rng image off w
      = generate_random_images_while rf sig fuel (rf rng image.rows image.cols).2
          { image with at_ := (rf rng image.rows image.cols).1 } w.active
          (after_noise { image with at_ := (rf rng image.rows image.cols).1 } off w) := by
  simp only [generate_random_images_while, World.readFlag, h, h2, Bool.false_eq_true,
    if_false]
  simp [blit_world, SwapOnVSync, World.emit, after_noise]

theorem offscreen_fold_none (l : List Event) : l.foldl offscreen_step none = none := by
  induction l with
  | nil => rfl
  | cons e l ih => simpa [List.foldl_cons, offscreen_step] using ih

theorem offscreen_fold_writes (id : Nat) (s : Shown) (hid : id ≠ s.active)
    (hp : s.pending = none ∨ s.pending = some id) (cs : List PixelWrite) :
    ∃ p, (cs.map (fun c => Event.setPixel (.frame id) c.x c.y c.red c.green c.blue)).foldl
        offscreen_step (some s) = some ⟨s.active, p⟩ ∧ (p = none ∨ p = some id) := by
  induction cs generalizing s with
  | nil => exact ⟨s.pending, rfl, hp⟩
  | cons c cs ih =>
    obtain ⟨p, h1, h2⟩ := ih ⟨s.active, some id⟩ hid (Or.inr rfl)
    refine ⟨p, ?_, h2⟩
    simp only [List.map_cons, List.foldl_cons, offscreen_step]
    rw [if_pos ⟨hid, hp⟩]
    exact h1

theorem offscreen_fold_round (id : Nat) (s : Shown) (hid : id ≠ s.active)
    (hp : s.pending = none) (image : Mat) (quiet1 quiet2 : List Event) (returned : Nat)
    (hq1 : ∀ e ∈ quiet1, ∀ t, offscreen_step (some t) e = some t)
    (hq2 : ∀ e ∈ quiet2, ∀ t, offscreen_step (some t) e = some t) :
    (quiet1 ++ blit_events image (.frame id)
        ++ (Event.swapOnVSync id returned :: quiet2)).foldl offscreen_step (some s)
      = some ⟨id, none⟩ := by
  have hquiet : ∀ (q : List Event), (∀ e ∈ q, ∀ t, offscreen_step (some t) e = some t) →
      ∀ t, q.foldl offscreen_step (some t) = some t := by
    intro q
    induction q with
    | nil => intro _ t; rfl
    | cons e q ih =>
      intro hq t
      rw [List.foldl_cons, hq e (List.mem_cons_self _ _) t]
      exact ih (fun e he => hq e (List.mem_cons_of_mem _ he)) t
  obtain ⟨p, h1, h2⟩ := offscreen_fold_writes id s hid (Or.inl hp) (recorded_calls image)
  rw [List.foldl_append, List.foldl_append, hquiet quiet1 hq1 s, blit_events, h1,
    List.foldl_cons]
  have hswap : offscreen_step (some ⟨s.active, p⟩) (Event.swapOnVSync id returned)
      = some ⟨id, none⟩ := by
    simp only [offscreen_step]
    rw [if_pos h2]
  rw [hswap]
  exact hquiet quiet2 hq2 _

/-- The loop of the fallback generator keeps the double-buffering discipline:
entered with no write pending and `off` not on display, it leaves in the same
condition. -/
theorem generate_random_images_while_discipline
    (rf : Nat → Nat → Nat → (Nat → Nat → Vec3b) × Nat) (sig : Option Nat) (pre : List Event)
    (start : Shown) (fuel rng : Nat) (image : Mat) (off : Nat) (w : World) (evs : List Event)
    (htrace : w.trace = pre ++ evs)
    (hcheck : evs.foldl offscreen_step (some start) = some ⟨w.active, none⟩)
    (hoff : off ≠ w.active) :
    ∃ evs2 shown,
      (generate_random_images_while rf sig fuel rng image off w).world.trace = pre ++ evs2 ∧
      evs2.foldl offscreen_step (some start) = some ⟨shown, none⟩ := by
  induction fuel generalizing rng image off w evs with
  | zero => exact ⟨evs, w.active, htrace, hcheck⟩
  | succ fuel ih =>
    by_cases hflag : interrupt_received sig w = true
    · rw [generate_random_images_while_stop _ _ _ _ _ _ _ hflag]
      refine ⟨evs ++ [Event.readFlag (interrupt_received sig w)], w.active, ?_, ?_⟩
      · simp [htrace]
      · rw [List.foldl_append, hcheck]
        rfl
    · have hfalse : interrupt_received sig w = false := by simpa using hflag
      by_cases hflag2 :
          interrupt_received sig ((w.emit (.readFlag false)).emit .rngFill) = true
      · rw [generate_random_images_while_break _ _ _ _ _ _ _ hfalse hflag2]
        refine ⟨evs ++ [Event.readFlag false, Event.rngFill, Event.readFlag true], w.active,
          ?_, ?_⟩
        · simp [htrace]
        · rw [List.foldl_append, hcheck]
          rfl
      · rw [generate_random_images_while_step _ _ _ _ _ _ _ hfalse (by simpa using hflag2)]
        apply ih _ _ w.active (after_noise _ off w)
          (evs ++ ([Event.readFlag false, Event.rngFill, Event.readFlag false]
            ++ blit_events { image with at_ := (rf rng image.rows image.cols).1 } (.frame off)
            ++ [Event.swapOnVSync off w.active, Event.usleep 10000]))
        · simp [after_noise, htrace]
        · rw [List.foldl_append, hcheck]
          exact offscreen_fold_round off ⟨w.active, none⟩ hoff rfl _
            [Event.readFlag false, Event.rngFill, Event.readFlag false] [Event.usleep 10000]
            w.active
            (by
              intro e he t
              simp only [List.mem_cons, List.mem_singleton, List.not_mem_nil, or_false] at he
              rcases he with rfl | rfl | rfl <;> rfl)
            (by
              intro e he t
              simp only [List.mem_singleton] at he
              subst he
              rfl)
        · simp only [after_noise]
          exact fun h => hoff h.symm

theorem offscreen_fold_no_live_write (l : List Event) (s t : Shown)
    (h : l.foldl offscreen_step (some s) = some t) (x y : Int) (r g b : Nat) :
    Event.setPixel .matrix x y r g b ∉ l := by
  induction l generalizing s with
  | nil => simp
  | cons e l ih =>
    intro hmem
    rw [List.foldl_cons] at h
    cases hstep : offscreen_step (some s) e with
    | none =>
      rw [hstep, offscreen_fold_none] at h
      exact absurd h (by simp)
    | some s2 =>
      rw [hstep] at h
      rcases List.mem_cons.mp hmem with heq | hin
      · subst heq
        simp [offscreen_step] at hstep
      · exact ih s2 h hin

/-- C5: when the loaded sequence is empty, the dispatch of `main` is the call
of `generate_random_images`; in that run no pixel is written to the live
canvas, and every pixel write goes to a buffer that is not on display and is
swapped in before anything else is written and before the run stops. -/
theorem C5_empty_sequence_runs_fallback (env : Env) (sig : Option Nat) (fuel : Nat) (w : World)
    (hw : w.active < w.nframes) :
    main_switch env sig [] fuel w = generate_random_images env.rng_fill sig fuel w ∧
    (∀ (x y : Int) (r g b : Nat), Event.setPixel .matrix x y r g b ∉
      (main_switch env sig [] fuel w).world.trace.drop w.trace.length) ∧
    offscreen_discipline w.active
      ((main_switch env sig [] fuel w).world.trace.drop w.trace.length) = true := by
  obtain ⟨evs, shown, h1, h2⟩ :=
    generate_random_images_while_discipline env.rng_fill sig w.trace ⟨w.active, none⟩ fuel
      rng_default_state ⟨w.height, w.width, fun _ _ => ⟨0, 0, 0⟩⟩ w.nframes
      (CreateFrameCanvas w) [Event.createFrameCanvas w.nframes] (by simp) rfl
      (by simp; omega)
  have htrace : (main_switch env sig [] fuel w).world.trace = w.trace ++ evs := h1
  refine ⟨rfl, ?_, ?_⟩
  · intro x y r g b
    rw [htrace, List.drop_left]
    exact offscreen_fold_no_live_write evs _ _ h2 x y r g b
  · rw [htrace, List.drop_left]
    simp [offscreen_discipline, h2]

/-- C5 on the world in which `main` reaches its `switch` after a decode that
throws, with a signal that ends the fallback run. -/
theorem C5_empty_sequence_runs_fallback_witness :
    (main_loaded unreadable_env ["image-example", "a.txt"] 2 2).2.active
      < (main_loaded unreadable_env ["image-example", "a.txt"] 2 2).2.nframes ∧
    offscreen_discipline (main_loaded unreadable_env ["image-example", "a.txt"] 2 2).2.active
      ((main_switch unreadable_env (some 20) [] 5
          (main_loaded unreadable_env ["image-example", "a.txt"] 2 2).2).world.trace.drop
        (main_loaded unreadable_env ["image-example", "a.txt"] 2 2).2.trace.length) = true :=
  ⟨by decide, (C5_empty_sequence_runs_fallback unreadable_env (some 20) 5
    (main_loaded unreadable_env ["image-example", "a.txt"] 2 2).2 (by decide)).2.2⟩

theorem generate_random_images_while_returns
    (rf : Nat → Nat → Nat → (Nat → Nat → Vec3b) × Nat) (t fuel rng : Nat) (image : Mat)
    (off : Nat) (w : World) (h : t < w.trace.length + fuel) (hpos : 0 < fuel) :
    (generate_random_images_while rf (some t) fuel rng image off w).returned = true := by
  induction fuel generalizing rng image off w with
  | zero => omega
  | succ fuel ih =>
    by_cases hflag : interrupt_received (some t) w = true
    · rw [generate_random_images_while_stop _ _ _ _ _ _ _ hflag]
    · have hfalse : interrupt_received (some t) w = false := by simpa using hflag
      by_cases hflag2 :
          interrupt_received (some t) ((w.emit (.readFlag false)).emit .rngFill) = true
      · rw [generate_random_images_while_break _ _ _ _ _ _ _ hfalse hflag2]
      · rw [generate_random_images_while_step _ _ _ _ _ _ _ hfalse (by simpa using hflag2)]
        have hlt : w.trace.length + 2 < t := by
          simpa [interrupt_received_some] using hflag2
        apply ih
        · simp [after_noise]
          omega
        · omega

theorem main_switch_returns (env : Env) (t fuel : Nat) (images : List Mat) (w : World)
    (h : t < w.trace.length + fuel) (hpos : 0 < fuel) :
    (main_switch env (some t) images fuel w).returned = true := by
  match images with
  | [] =>
    simp only [main_switch, generate_random_images]
    exact generate_random_images_while_returns _ _ _ _ _ _ _ (by simp; omega) hpos
  | [image] =>
    simp only [main_switch]
    exact idle_wait_returns _ _ _ (by simp; omega) hpos
  | _ :: _ :: _ => rfl

/-! ## The program as a whole -/

theorem main_usage (env : Env) (argv : List String) (sig : Option Nat) (fuel : Nat)
    (h : (env.ParseOptionsFromFlags argv).1 = false ∨
      (env.ParseOptionsFromFlags argv).2.length ≠ 2) :
    main env argv sig fuel
      = usage (env.ParseOptionsFromFlags argv).2.head? (World.init.emit .parseOptions) := by
  unfold main
  rcases h with h | h
  · simp [h]
  · by_cases hp : (env.ParseOptionsFromFlags argv).1 = true
    · simp [hp, h]
    · simp [hp]

theorem main_no_device (env : Env) (argv : List String) (sig : Option Nat) (fuel : Nat)
    (hp : (env.ParseOptionsFromFlags argv).1 = true)
    (hl : (env.ParseOptionsFromFlags argv).2.length = 2) (hc : env.CreateFromOptions = none) :
    (main env argv sig fuel).exit = some 1 ∧
    (main env argv sig fuel).uncaught = false := by
  unfold main
  simp [hp, hl, hc]

theorem main_device (env : Env) (argv : List String) (sig : Option Nat) (fuel : Nat)
    (width height : Nat)
    (hp : (env.ParseOptionsFromFlags argv).1 = true)
    (hl : (env.ParseOptionsFromFlags argv).2.length = 2)
    (hc : env.CreateFromOptions = some (width, height)) :
    main env argv sig fuel
      = if (main_switch env sig (main_loaded env argv width height).1 fuel
            (main_loaded env argv width height).2).returned then
          ⟨((main_switch env sig (main_loaded env argv width height).1 fuel
            (main_loaded env argv width height).2).world.emit .clear).emit .deleteMatrix,
            some 0, false⟩
        else ⟨(main_switch env sig (main_loaded env argv width height).1 fuel
            (main_loaded env argv width height).2).world, none, false⟩ := by
  unfold main
  simp only [hp, hl, hc, Bool.not_true, Bool.false_eq_true, if_false, ne_eq,
    not_true_eq_false]
  rfl

theorem generate_random_images_while_extends
    (rf : Nat → Nat → Nat → (Nat → Nat → Vec3b) × Nat) (sig : Option Nat) (fuel rng : Nat)
    (image : Mat) (off : Nat) (w : World) :
    ∃ evs, (generate_random_images_while rf sig fuel rng image off w).world.trace
      = w.trace ++ evs := by
  induction fuel generalizing rng image off w with
  | zero => exact ⟨[], by simp [generate_random_images_while]⟩
  | succ fuel ih =>
    by_cases hflag : interrupt_received sig w = true
    · exact ⟨_, by rw [generate_random_images_while_stop _ _ _ _ _ _ _ hflag]; rfl⟩
    · have hfalse : interrupt_received sig w = false := by simpa using hflag
      by_cases hflag2 :
          interrupt_received sig ((w.emit (.readFlag false)).emit .rngFill) = true
      · rw [generate_random_images_while_break _ _ _ _ _ _ _ hfalse hflag2]
        exact ⟨_, by
          simp only [World.emit_trace, List.append_assoc]
          rfl⟩
      · rw [generate_random_images_while_step _ _ _ _ _ _ _ hfalse (by simpa using hflag2)]
        obtain ⟨evs, h⟩ := ih (rf rng image.rows image.cols).2
          { image with at_ := (rf rng image.rows image.cols).1 } w.active
          (after_noise { image with at_ := (rf rng image.rows image.cols).1 } off w)
        exact ⟨_, by rw [h, after_noise, List.append_assoc]⟩

theorem main_switch_extends (env : Env) (sig : Option Nat) (images : List Mat) (fuel : Nat)
    (w : World) :
    ∃ evs, (main_switch env sig images fuel w).world.trace = w.trace ++ evs := by
  match images with
  | [] =>
    obtain ⟨evs, h⟩ := generate_random_images_while_extends env.rng_fill sig fuel
      rng_default_state ⟨w.height, w.width, fun _ _ => ⟨0, 0, 0⟩⟩ w.nframes (CreateFrameCanvas w)
    exact ⟨_, by
      simp only [main_switch, generate_random_images, h, CreateFrameCanvas_trace, List.append_assoc]
      rfl⟩
  | [image] =>
    obtain ⟨k, h, -, -⟩ := idle_wait_spec sig fuel
      (copy_image_to_canvas (World.SetPixel .matrix) image w)
    exact ⟨_, by
      simp only [main_switch, h, blit_trace, List.append_assoc]
      rfl⟩
  | _ :: _ :: _ => exact ⟨[], by simp [main_switch]⟩


theorem load_images_extends (imread : String → ImreadResult) (resize : Mat → Int → Int → Mat)
    (filename : String) (tw th : Int) (images : List Mat) (w : World) :
    ∃ evs, (load_images imread resize filename tw th images w).2.trace = w.trace ++ evs := by
  cases hread : imread filename with
  | threw what =>
    exact ⟨_, by
      simp only [load_images, hread, World.emit_trace, List.append_assoc]
      rfl⟩
  | ok image =>
    by_cases hempty : image.empty = true
    · exact ⟨_, by
        simp only [load_images, hread, hempty, if_true, World.emit_trace, List.append_assoc]
        rfl⟩
    · exact ⟨_, by
        simp only [load_images, hread, hempty, Bool.false_eq_true, if_false, List.foldl_cons, List.foldl_nil, World.emit_trace, List.append_assoc]
        rfl⟩

/-- The exit behaviour of `main`, for every argument vector.  Write "usage
error" for: the device flags do not parse, or the arguments left are not
exactly two.  `main` returns 1 exactly on a usage error with a program name
present or, without usage error, when the driver yields no device handle; it
is left by an uncaught exception exactly on a usage error with no program
name; on a usage error the device handle is never requested.  It returns no
code other than 0 or 1; whenever it returns 0 the device had been opened and
the last two actions of the run are the clear of the canvas and the release
of the handle; and without usage error and with a device it does return 0
once the interrupt has been delivered. -/
theorem main_exit_codes (env : Env) (argv : List String) (sig : Option Nat) (fuel : Nat) :
    ((main env argv sig fuel).exit = some 1 ↔
      ((((env.ParseOptionsFromFlags argv).1 = false ∨
          (env.ParseOptionsFromFlags argv).2.length ≠ 2) ∧
          (env.ParseOptionsFromFlags argv).2 ≠ []) ∨
        (¬ ((env.ParseOptionsFromFlags argv).1 = false ∨
          (env.ParseOptionsFromFlags argv).2.length ≠ 2) ∧ env.CreateFromOptions = none))) ∧
    ((main env argv sig fuel).uncaught = true ↔
      (((env.ParseOptionsFromFlags argv).1 = false ∨
          (env.ParseOptionsFromFlags argv).2.length ≠ 2) ∧
        (env.ParseOptionsFromFlags argv).2 = [])) ∧
    (((env.ParseOptionsFromFlags argv).1 = false ∨
        (env.ParseOptionsFromFlags argv).2.length ≠ 2) →
      Event.createFromOptions ∉ (main env argv sig fuel).world.trace) ∧
    (∀ code, (main env argv sig fuel).exit = some code → code = 0 ∨ code = 1) ∧
    ((main env argv sig fuel).exit = some 0 →
      ∃ before, (main env argv sig fuel).world.trace
          = before ++ [Event.clear, Event.deleteMatrix] ∧
        Event.createFromOptions ∈ before) ∧
    (¬ ((env.ParseOptionsFromFlags argv).1 = false ∨
        (env.ParseOptionsFromFlags argv).2.length ≠ 2 ∨ env.CreateFromOptions = none) →
      ∀ t extra : Nat, (main env argv (some t) (t + 1 + extra)).exit = some 0) := by
  by_cases husage : (env.ParseOptionsFromFlags argv).1 = false ∨
      (env.ParseOptionsFromFlags argv).2.length ≠ 2
  · have hmain := main_usage env argv sig fuel husage
    by_cases hargs : (env.ParseOptionsFromFlags argv).2 = []
    · have hexit : (main env argv sig fuel).exit = none := by
        rw [hmain, hargs]; rfl
      have hthrown : (main env argv sig fuel).uncaught = true := by
        rw [hmain, hargs]; rfl
      have htrace : (main env argv sig fuel).world.trace = [Event.parseOptions] := by
        rw [hmain, hargs]; rfl
      refine ⟨?_, ?_, ?_, ?_, ?_, ?_⟩
      · rw [hexit]
        constructor
        · intro h
          exact absurd h (by simp)
        · rintro (⟨-, h⟩ | ⟨h, -⟩)
          · exact absurd hargs h
          · exact absurd husage h
      · exact ⟨fun _ => ⟨husage, hargs⟩, fun _ => hthrown⟩
      · intro _
        rw [htrace]
        simp
      · intro code hcode
        rw [hexit] at hcode
        exact absurd hcode (by simp)
      · intro h0
        rw [hexit] at h0
        exact absurd h0 (by simp)
      · intro hnone
        exact absurd (by
          rcases husage with h | h
          · exact Or.inl h
          · exact Or.inr (Or.inl h)) hnone
    · obtain ⟨name, rest, hcons⟩ := List.exists_cons_of_ne_nil hargs
      have hexit : (main env argv sig fuel).exit = some 1 := by
        rw [hmain, hcons]; rfl
      have hthrown : (main env argv sig fuel).uncaught = false := by
        rw [hmain, hcons]; rfl
      refine ⟨?_, ?_, ?_, ?_, ?_, ?_⟩
      · exact ⟨fun _ => Or.inl ⟨husage, hargs⟩, fun _ => hexit⟩
      · rw [hthrown]
        constructor
        · intro h
          exact absurd h (by simp)
        · rintro ⟨-, h⟩
          exact absurd h hargs
      · intro _
        rw [hmain, hcons]
        simp [usage, World.init]
      · intro code hcode
        rw [hexit] at hcode
        exact Or.inr (Option.some.inj hcode).symm
      · intro h0
        rw [hexit] at h0
        exact absurd (Option.some.inj h0) (by decide)
      · intro hnone
        exact absurd (by
          rcases husage with h | h
          · exact Or.inl h
          · exact Or.inr (Or.inl h)) hnone
  · have hp : (env.ParseOptionsFromFlags argv).1 = true := by
      by_contra h
      exact husage (Or.inl (by simpa using h))
    have hl : (env.ParseOptionsFromFlags argv).2.length = 2 := by
      by_contra h
      exact husage (Or.inr h)
    have hargs : (env.ParseOptionsFromFlags argv).2 ≠ [] := by
      intro h
      rw [h] at hl
      exact absurd hl (by decide)
    cases hc : env.CreateFromOptions with
    | none =>
      have hexit := (main_no_device env argv sig fuel hp hl hc).1
      have hthrown := (main_no_device env argv sig fuel hp hl hc).2
      refine ⟨?_, ?_, ?_, ?_, ?_, ?_⟩
      · exact ⟨fun _ => Or.inr ⟨husage, rfl⟩, fun _ => hexit⟩
      · rw [hthrown]
        constructor
        · intro h
          exact absurd h (by simp)
        · rintro ⟨h, -⟩
          exact absurd h husage
      · intro h
        exact absurd h husage
      · intro code hcode
        rw [hexit] at hcode
        exact Or.inr (Option.some.inj hcode).symm
      · intro h0
        rw [hexit] at h0
        exact absurd (Option.some.inj h0) (by decide)
      · intro hnone
        exact absurd (Or.inr (Or.inr rfl)) hnone
    | some dims =>
      obtain ⟨width, height⟩ := dims
      have hmain := fun s f => main_device env argv s f width height hp hl hc
      have hcreated : ∀ s f, Event.createFromOptions ∈
          (main_switch env s (main_loaded env argv width height).1 f
            (main_loaded env argv width height).2).world.trace := by
        intro s f
        have hload : ∃ evs, (main_loaded env argv width height).2.trace
            = [Event.parseOptions, Event.signal 15, Event.signal 2, Event.createFromOptions]
              ++ evs :=
          load_images_extends env.imread env.resize
            ((env.ParseOptionsFromFlags argv).2.getD 1 "") (width : Int) (height : Int) []
            { trace := [Event.parseOptions, Event.signal 15, Event.signal 2,
                Event.createFromOptions]
              nframes := 1
              active := 0
              width := width
              height := height }
        obtain ⟨evs, hevs⟩ := hload
        obtain ⟨evs2, hevs2⟩ := main_switch_extends env s (main_loaded env argv width height).1 f
          (main_loaded env argv width height).2
        rw [hevs2, hevs]
        simp
      refine ⟨?_, ?_, ?_, ?_, ?_, ?_⟩
      · constructor
        · intro h1
          rw [hmain sig fuel] at h1
          split_ifs at h1
          simp at h1
        · rintro (⟨h, -⟩ | ⟨-, h⟩)
          · exact absurd h husage
          · exact absurd h (by simp)
      · constructor
        · intro h1
          rw [hmain sig fuel] at h1
          split_ifs at h1
        · rintro ⟨h, -⟩
          exact absurd h husage
      · intro h
        exact absurd h husage
      · intro code hcode
        rw [hmain sig fuel] at hcode
        split_ifs at hcode
        · exact Or.inl (Option.some.inj hcode).symm
      · intro h0
        rw [hmain sig fuel] at h0 ⊢
        split_ifs at h0 ⊢ with hret
        · exact ⟨_, by simp, hcreated sig fuel⟩
      · intro _ t extra
        rw [hmain (some t) (t + 1 + extra)]
        have hret := main_switch_returns env t (t + 1 + extra)
          (main_loaded env argv width height).1 (main_loaded env argv width height).2
          (by omega) (by omega)
        rw [if_pos hret]

/-- A run with a program name, one image path, a device and a signal returns 0. -/
theorem main_exit_codes_sample :
    (main sample_env ["image-example", "a.png"] (some 12) (12 + 1 + 0)).exit = some 0 :=
  (main_exit_codes sample_env ["image-example", "a.png"] (some 12) 13).2.2.2.2.2
    (by simp [sample_env]) 12 0

/-- C9 fails on the code at an empty argument vector (`argc` is 0): the number
of arguments is not 2, so the claim asks for exit code 1, but `main` calls
`usage(argv[0])` with a null pointer and is left by the exception thrown
there; it returns no exit code and its only action is the flag parsing. -/
theorem C9_empty_argv_leaves_by_exception (sig : Option Nat) (fuel : Nat) :
    (sample_env.ParseOptionsFromFlags []).2.length ≠ 2 ∧
    (main sample_env [] sig fuel).exit = none ∧
    (main sample_env [] sig fuel).uncaught = true ∧
    (main sample_env [] sig fuel).world.trace = [Event.parseOptions] := by
  refine ⟨by decide, rfl, rfl, rfl⟩

end RgbLedMatrix
